import Mathlib

/-!
Verification of the ephemeral container session engine (`src/main.rs`,
`src/docker.rs`) against its natural-language specification.

The Rust code is shallowly embedded: external container-engine calls are
resolved by a `World` oracle, stateful methods of `Context` become explicit
state passing over `Ctx`, and every engine call appends to an event trace
(`List Ev`).  Machine integers (`i64` exit codes) are modelled as `Int`, with
the `as u8` cast made explicit where it occurs.
-/

namespace Tempsystem

/-- Error enum from `src/docker.rs` lines 18-102 (`enum Error`).  Payloads that
no claim inspects (the wrapped transport errors, `std::io::Error` values) are
dropped; payloads that are inspected (package name, exit code, extracted
message) are kept. -/
inductive Error where
  | Connection
  | NotConnected
  | ImageCreate
  | ContainerCreate
  | ContainerStart
  | ExecCreate
  | ExecStart
  | ExpectedAttached
  | TerminalSize
  | ExecResize
  | ExecInspect
  | Rawmode
  | StdoutWrite
  | StdoutFmtWrite
  | StdoutFlush
  | ContainerDelete
  | GetCWD
  | PackageDNE (pkg : String)
  | PackageInstall (code : Int) (msg : String)
  | SystemUpdate (code : Int) (msg : String)
  | ChaoticAUR (code : Int) (msg : String)
  | Landware (code : Int)
  | Pkgfile (code : Int)
  | HomeDir
  | OpenHistory
  | Tar
  | ContainerUpload
  deriving DecidableEq, Repr

/-- Rust `str::strip_prefix`: `some` of the remainder when `l` starts with
`pre`, else `none` (`src/docker.rs` lines 113, 122). -/
def stripErrLine (pre : String) (l : String) : Option String :=
  if l.startsWith pre then some (l.drop pre.length) else none

/-- `get_error_from_pacman` (`src/docker.rs` lines 119-126): split on newlines,
strip the `"error: "` marker from each line that has it, keep the last such
line, defaulting to the empty string. -/
def get_error_from_pacman (s : String) : String :=
  (((s.splitOn "\n").filterMap (stripErrLine "error: ")).getLast?).getD ""

/-- `get_error_from_pacman_key` (`src/docker.rs` lines 110-117), same with the
`"==> ERROR: "` marker. -/
def get_error_from_pacman_key (s : String) : String :=
  (((s.splitOn "\n").filterMap (stripErrLine "==> ERROR: ")).getLast?).getD ""

/-- `get_error_from_either` (`src/docker.rs` lines 128-135). -/
def get_error_from_either (s : String) : String :=
  let ret := get_error_from_pacman s
  if ret ≠ "" then ret else get_error_from_pacman_key s

/-- Rust `str::split_whitespace`: whitespace-separated words, empties
discarded. -/
def splitWs (s : String) : List String :=
  (s.split Char.isWhitespace).filter (fun t => t ≠ "")

/-- Lowercase hex digits of `n`, as produced by Rust `{:x}` formatting. -/
def hexOfNat (n : Nat) : String :=
  String.mk (Nat.toDigits 16 n)

/-- Rust `char::escape_default` for one character: escapes tab, carriage
return, newline, backslash, the two quote characters, keeps printable ASCII,
and renders everything else as a `\u` hex escape. -/
def escapeCharDefault (ch : Char) : String :=
  if ch = Char.ofNat 9 then "\\t"
  else if ch = Char.ofNat 13 then "\\r"
  else if ch = Char.ofNat 10 then "\\n"
  else if ch = '\\' then "\\\\"
  else if ch = Char.ofNat 39 then "\\" ++ String.singleton (Char.ofNat 39)
  else if ch = Char.ofNat 34 then "\\\""
  else if 32 ≤ ch.toNat ∧ ch.toNat ≤ 126 then String.singleton ch
  else "\\u\x7b" ++ hexOfNat ch.toNat ++ "\x7d"

/-- Rust `str::escape_default` via `char::escape_default` on each char. -/
def escapeDefault (s : String) : String :=
  String.join (s.toList.map escapeCharDefault)

/-- Rust `i64 as u8` (`src/main.rs` line 129): the low 8 bits, i.e. the
Euclidean remainder modulo 256. -/
def u8Cast (code : Int) : Nat := (code % 256).toNat

/-- Rust `i64 as u64` (`src/docker.rs` lines 555-557): two's-complement
reinterpretation, i.e. the Euclidean remainder modulo 2^64. -/
def toU64 (i : Int) : Nat := (i % (2 ^ 64)).toNat

/-! Progress aggregator: the per-layer indicator map maintained by
`pull_image` (`src/docker.rs` lines 529-582). -/

/-- Optional progress pair of a pull event (`bollard` `ProgressDetail`):
`current` and `total` are each optional `i64`. -/
structure ProgressDetail where
  current : Option Int
  total : Option Int
  deriving DecidableEq, Repr

/-- One image-pull event (`bollard` `CreateImageInfo`), restricted to the
fields `pull_image` reads: `id`, `progress_detail`, `status`. -/
structure PullEvent where
  id : Option String
  progress_detail : Option ProgressDetail
  status : Option String
  deriving DecidableEq, Repr

/-- State of one `indicatif::ProgressBar` as far as `pull_image` drives it:
its optional length, position, last status message, and whether
`finish_and_clear` has been called on it. -/
structure Bar where
  length : Option Nat
  pos : Nat
  message : String
  cleared : Bool
  deriving DecidableEq, Repr

/-- `ProgressBar::new(total)`: a bar of known length, position 0. -/
def Bar.new (total : Nat) : Bar :=
  { length := some total, pos := 0, message := "", cleared := false }

/-- `ProgressBar::no_length()`: a bar of unknown length. -/
def Bar.noLength : Bar :=
  { length := none, pos := 0, message := "", cleared := false }

/-- The `bars: HashMap<String, ProgressBar>` of `pull_image`, as an
association list keyed by layer id (lookup order of a `HashMap` is
irrelevant to the code, which only ever addresses entries by key). -/
abbrev BarsMap := List (String × Bar)

/-- `HashMap` key lookup. -/
def lookupBar : BarsMap → String → Option Bar
  | [], _ => none
  | (k, b) :: rest, key => if k = key then some b else lookupBar rest key

/-- `HashMap` insert-or-replace at a key (the position of an entry in the
association list carries no meaning). -/
def setBar : BarsMap → String → Bar → BarsMap
  | [], key, bar => [(key, bar)]
  | (k, b) :: rest, key, bar =>
      if k = key then (k, bar) :: rest else (k, b) :: setBar rest key bar

/-- `HashMap::remove` at a key. -/
def eraseBar : BarsMap → String → BarsMap
  | [], _ => []
  | (k, b) :: rest, key => if k = key then rest else (k, b) :: eraseBar rest key

/-- Numeric-progress part of the loop body (`src/docker.rs` lines 549-558):
when the event carries both `current` and `total`, look up or create the bar
for the id and set its position and length. -/
def applyProgress (m : BarsMap) (id : String) : Option ProgressDetail → BarsMap
  | some pd =>
    match pd.current, pd.total with
    | some cur, some total =>
      let pb := (lookupBar m id).getD (Bar.new (toU64 total))
      setBar m id { pb with pos := toU64 cur, length := some (toU64 total) }
    | _, _ => m
  | none => m

/-- Status dispatch of the loop body (`src/docker.rs` lines 562-574), with
`pb` the bar found or inserted for the id. -/
def applyStatus (m : BarsMap) (id : String) (pb : Bar) : Option String → BarsMap
  | none => m
  | some msg =>
    if msg = "Pull complete" then eraseBar m id
    else
      match pb.length, msg.endsWith " complete" with
      | some mx, true => setBar m id { pb with pos := mx }
      | some _, false => setBar m id { pb with message := msg }
      | none, _ => setBar m id { pb with message := msg }

/-- One iteration of the `while let Some(update) = stream.next()` body of
`pull_image` (`src/docker.rs` lines 545-575): skip events with no id or id
`"latest"`; apply the numeric progress pair if any; ensure a (possibly
length-less) bar exists for the id (the second `entry().or_insert`); then
dispatch on the status text. -/
def processEvent (m : BarsMap) (e : PullEvent) : BarsMap :=
  match e.id with
  | none => m
  | some id =>
    if id = "latest" then m
    else
      let m1 := applyProgress m id e.progress_detail
      let pb := (lookupBar m1 id).getD Bar.noLength
      applyStatus (setBar m1 id pb) id pb e.status

/-- The whole event loop of `pull_image` over a finite stream. -/
def processAll (evs : List PullEvent) : BarsMap :=
  evs.foldl processEvent []

/-- The `for (_, pb) in bars { pb.finish_and_clear(); }` loop after stream
end (`src/docker.rs` lines 577-579): every indicator still tracked is
finalized. -/
def finalizeAll (m : BarsMap) : BarsMap :=
  m.map (fun kb => (kb.1, { kb.2 with cleared := true }))

/-- Complete aggregator run: process every event, then finalize the
indicators that remain open. -/
def pullRun (evs : List PullEvent) : BarsMap :=
  finalizeAll (processAll evs)

/-- Keys currently tracked by the aggregator. -/
def barKeys (m : BarsMap) : List String := m.map (fun kb => kb.1)

/-! Session state machine: `Context` of `src/docker.rs` driven by `main`
(`src/main.rs` lines 82-136).  External engine calls are resolved by a
`World` oracle; each call is recorded in an event trace. -/

/-- Modelled from the spec: the `ZshHistorySync` enum and the
`sync_zsh_history` CLI option are referenced by `src/docker.rs` (lines 16,
279, 369) but their definition is not among the provided sources.  Per the
spec, history sync is either a bind mount, a copy ("history-sync-by-copy"),
or absent. -/
inductive ZshHistorySync where
  | Mount
  | Copy
  | Disabled
  deriving DecidableEq, Repr

/-- CLI options consumed by the engine (`struct Args`, `src/main.rs` lines
6-64, plus the spec-modelled `sync_zsh_history`).  Parsing itself is out of
scope; the fields arrive already resolved. -/
structure Args where
  verbose : Bool
  update_system : Bool
  update_pkgfile : Bool
  ro_root : Bool
  ro_cwd : Bool
  disable_cwd_mount : Bool
  no_network : Bool
  extra_packages : Option String
  extra_aur_packages : Option String
  privileged : Bool
  chaotic_aur : Bool
  landware : Bool
  command : List String
  sync_zsh_history : ZshHistorySync
  deriving DecidableEq, Repr

/-- Oracle for one exec created through the engine: whether `create_exec`
succeeds, whether `start_exec` succeeds and yields the attached shape, the
output stream (each item either a chunk or a stream error), whether
`inspect_exec` succeeds, and the optional exit code it reports. -/
structure ExecSpec where
  create_ok : Bool
  start_ok : Bool
  attached_shape : Bool
  chunks : List (Except Unit String)
  inspect_ok : Bool
  exit_code : Option Int

/-- Oracle fixing the outcome of every external call a session can make.
Execs are numbered in order of creation; `delete_ok n` is the outcome of the
`n`-th `remove_container` call of the process. -/
structure World where
  connect_ok : Bool
  pull_ok : Bool
  cwd_ok : Bool
  home_ok : Bool
  create_id : Except Unit String
  start_ok : Bool
  exec : Nat → ExecSpec
  open_history_ok : Bool
  tar_ok : Bool
  upload_ok : Bool
  tty_ok : Bool
  resize_ok : Bool
  raw_ok : Bool
  stdout_ok : Bool
  delete_ok : Nat → Bool

/-- The mutable state of `Context` (`src/docker.rs` lines 104-108):
`docker: Option<Docker>` becomes the `connected` flag, `container_id`
defaults to the empty string.  `nextExec` and `deleteCalls` are model
bookkeeping tying calls to their oracle entries. -/
structure Ctx where
  connected : Bool
  container_id : String
  nextExec : Nat
  deleteCalls : Nat
  deriving DecidableEq, Repr

/-- `Context::default()`: not connected, empty container id. -/
def Ctx.init : Ctx :=
  { connected := false, container_id := "", nextExec := 0, deleteCalls := 0 }

/-- Observable calls made by a session, in program order. -/
inductive Ev where
  | createOk (id : String)
  | createFail
  | execCreate (cmd : List String) (user : String) (attach : Bool) (execId : Nat)
  | execStart (execId : Nat) (attach : Bool)
  | resize (execId : Nat)
  | write (chunk : String)
  | inspect (execId : Nat)
  | remove (handle : String)
  | upload
  | reportError (e : Error)
  deriving DecidableEq, Repr

/-- The exec command vector built by `create_exec` (`src/docker.rs` line
443): `["/usr/bin/zsh", "-c", command]`. -/
def wrapCmd (command : String) : List String := ["/usr/bin/zsh", "-c", command]

/-- `Context::create_exec` (`src/docker.rs` lines 432-451): requires the
connection, then asks the engine for an exec bound to the current container
with the wrapped command, user `"tempsystem"`, and stdin/tty attachment equal
to the `attach` flag. -/
def create_exec (w : World) (c : Ctx) (command : String) (attach : Bool) :
    Except Error Nat × List Ev × Ctx :=
  if ¬c.connected then (.error .NotConnected, [], c)
  else
    let n := c.nextExec
    let ev := Ev.execCreate (wrapCmd command) "tempsystem" attach n
    let c1 := { c with nextExec := n + 1 }
    if (w.exec n).create_ok then (.ok n, [ev], c1)
    else (.error .ExecCreate, [ev], c1)

/-- The output loop `while let Some(Ok(output)) = output.next().await`:
consume chunks while they are `ok`, stop at the first stream error (or end of
stream). -/
def drainOk : List (Except Unit String) → List String
  | [] => []
  | .ok s :: rest => s :: drainOk rest
  | .error _ :: _ => []

/-- `Context::start_exec` with `attach = false` (`src/docker.rs` lines
503-526): start the exec, require the attached shape, accumulate the whole
output stream into a string buffer (`fmt::Write` into a `String` cannot
fail), then inspect for the exit code, a missing exit code defaulting to 0. -/
def start_exec_detached (w : World) (c : Ctx) (execId : Nat) :
    Except Error (Int × Option String) × List Ev :=
  if ¬c.connected then (.error .NotConnected, [])
  else
    let s := w.exec execId
    if ¬s.start_ok then (.error .ExecStart, [Ev.execStart execId false])
    else if ¬s.attached_shape then (.error .ExpectedAttached, [Ev.execStart execId false])
    else
      let buf := String.join (drainOk s.chunks)
      if s.inspect_ok then
        (.ok (s.exit_code.getD 0, some buf), [Ev.execStart execId false, Ev.inspect execId])
      else (.error .ExecInspect, [Ev.execStart execId false, Ev.inspect execId])

/-- `Context::start_exec` with `attach = true` (`src/docker.rs` lines
455-502, 522-526): start the exec attached (spawning the stdin-forwarding
task, which makes no engine calls and is abandoned at teardown), query the
terminal size, send the one-shot resize, enter raw mode, stream every output
chunk to local stdout (a failing write aborts before the first unwritten
chunk), and after the stream is drained inspect for the exit code. -/
def start_exec_attached (w : World) (c : Ctx) (execId : Nat) :
    Except Error (Int × Option String) × List Ev :=
  if ¬c.connected then (.error .NotConnected, [])
  else
    let s := w.exec execId
    if ¬s.start_ok then (.error .ExecStart, [Ev.execStart execId true])
    else if ¬s.attached_shape then (.error .ExpectedAttached, [Ev.execStart execId true])
    else if ¬w.tty_ok then (.error .TerminalSize, [Ev.execStart execId true])
    else if ¬w.resize_ok then
      (.error .ExecResize, [Ev.execStart execId true, Ev.resize execId])
    else if ¬w.raw_ok then
      (.error .Rawmode, [Ev.execStart execId true, Ev.resize execId])
    else
      let chunks := drainOk s.chunks
      if ¬w.stdout_ok ∧ chunks ≠ [] then
        (.error .StdoutWrite, [Ev.execStart execId true, Ev.resize execId])
      else
        let tr := [Ev.execStart execId true, Ev.resize execId]
          ++ chunks.map Ev.write ++ [Ev.inspect execId]
        if s.inspect_ok then (.ok (s.exit_code.getD 0, none), tr)
        else (.error .ExecInspect, tr)

/-- `Context::delete_container` (`src/docker.rs` lines 415-430): requires the
connection, then asks the engine to force-remove whatever `container_id`
currently holds (the default empty string when no container was ever
created). -/
def delete_container (w : World) (c : Ctx) : Except Error Unit × List Ev × Ctx :=
  if ¬c.connected then (.error .NotConnected, [], c)
  else
    let c1 := { c with deleteCalls := c.deleteCalls + 1 }
    if w.delete_ok c.deleteCalls then (.ok (), [Ev.remove c.container_id], c1)
    else (.error .ContainerDelete, [Ev.remove c.container_id], c1)

/-- `Context::create_container` (`src/docker.rs` lines 584-627): requires the
connection; resolving the cwd bind mount may fail with `GetCWD`, resolving
the home directory for the history bind mount may fail with `HomeDir`; then
the engine either returns the new container id or fails. -/
def create_container (w : World) (args : Args) (c : Ctx) :
    Except Error String × List Ev :=
  if ¬c.connected then (.error .NotConnected, [])
  else if (¬args.disable_cwd_mount) ∧ ¬w.cwd_ok then (.error .GetCWD, [])
  else if args.sync_zsh_history = ZshHistorySync.Mount ∧ ¬w.home_ok then
    (.error .HomeDir, [])
  else
    match w.create_id with
    | .ok id => (.ok id, [Ev.createOk id])
    | .error _ => (.error .ContainerCreate, [Ev.createFail])

/-- `Context::start_container` (`src/docker.rs` lines 629-637). -/
def start_container (w : World) (c : Ctx) : Except Error Unit :=
  if ¬c.connected then .error .NotConnected
  else if w.start_ok then .ok () else .error .ContainerStart

/-- `Context::pull_image` at the session level (`src/docker.rs` lines
529-541): requires the connection; the stream either completes or yields an
`ImageCreate` error.  Per-layer progress handling is `processEvent` above. -/
def pull_image (w : World) (c : Ctx) : Except Error Unit :=
  if ¬c.connected then .error .NotConnected
  else if w.pull_ok then .ok () else .error .ImageCreate

/-- `Context::copy_file` (`src/docker.rs` lines 220-241): requires the
connection, opens `~/.zsh_history`, packs it into a tar archive in memory,
and uploads the archive into the container. -/
def copy_file (w : World) (c : Ctx) : Except Error Unit × List Ev :=
  if ¬c.connected then (.error .NotConnected, [])
  else if ¬w.open_history_ok then (.error .OpenHistory, [])
  else if ¬w.tar_ok then (.error .Tar, [])
  else if w.upload_ok then (.ok (), [Ev.upload])
  else (.error .ContainerUpload, [Ev.upload])

/-! Command strings of the provisioning steps and the package loops,
transcribed from `src/docker.rs` (the raw strings keep their leading
newline and tab indentation). -/

/-- Search probe of `install_packages` (`src/docker.rs` line 152). -/
def searchCmd (pkg : String) : String :=
  "/bin/pacman -Ssq \"^" ++ pkg ++ "$\""

/-- Install command of `install_packages` (`src/docker.rs` line 162). -/
def installCmd (pkg : String) : String :=
  "/bin/sudo /bin/pacman -S --needed --noconfirm " ++ pkg

/-- Search probe of `install_aur_packages` (`src/docker.rs` line 181). -/
def aurSearchCmd (pkg : String) : String :=
  "/bin/yay --aur -Ssq \"^" ++ pkg ++ "$\""

/-- Install command of `install_aur_packages` (`src/docker.rs` line 191). -/
def aurInstallCmd (pkg : String) : String :=
  "/bin/yay --sync --needed --noconfirm --noprogressbar " ++ pkg

/-- System-update command (`src/docker.rs` line 207). -/
def updateSystemCmd : String := "/bin/sudo /bin/pacman -Syu --noconfirm"

/-- Pkgfile-database refresh command (`src/docker.rs` line 346). -/
def pkgfileCmd : String := "sudo pkgfile -u"

/-- Chaotic-AUR setup script (`src/docker.rs` lines 294-302). -/
def chaoticAURCmd : String :=
  "\n\t\t\t\t\tsudo pacman-key --init &&\n\t\t\t\t\tsudo pacman-key --populate &&\n\t\t\t\t\tsudo pacman-key --recv-key 3056513887B78AEB --keyserver keyserver.ubuntu.com &&\n\t\t\t\t\tsudo pacman-key --lsign-key 3056513887B78AEB &&\n\t\t\t\t\tsudo pacman -U --needed --noconfirm \'https://cdn-mirror.chaotic.cx/chaotic-aur/chaotic-keyring.pkg.tar.zst\' &&\n\t\t\t\t\tyes | sudo pacman -U --needed --noconfirm \'https://cdn-mirror.chaotic.cx/chaotic-aur/chaotic-mirrorlist.pkg.tar.zst\' &&\n\t\t\t\t\tprintf \'\\n\\n# Added by tempsystem\\n[chaotic-aur]\\nInclude = /etc/pacman.d/chaotic-mirrorlist\' | sudo tee -a /etc/pacman.conf && \n\t\t\t\t\tsudo pacman -Sy --noconfirm"

/-- Landware-repository setup script (`src/docker.rs` lines 321-323). -/
def landwareCmd : String :=
  "\n\t\t\t\t\tprintf \'\\n\\n# Added by tempsystem\\n[landware]\\nServer = https://repo.kage.sj.strangled.net/landware/x86_64\\nSigLevel = DatabaseNever PackageNever TrustedOnly\' | sudo tee -a /etc/pacman.conf &&\n\t\t\t\t\tsudo pacman -Sy --noconfirm"

/-- The shared shape of one batched provisioning invocation (`create_exec`
with `attach = false`, `start_exec`, then translate a non-zero exit into the
step's error, feeding the captured output — defaulted to the empty string —
to the step's error constructor).  This is the pattern repeated verbatim by
the `chaotic_aur`, `landware`, `update_system` and `update_pkgfile` blocks of
`perform_all_enter` and by `Context::update_system`; the verbose console echo
of the captured output is not modelled. -/
def run_step (w : World) (c : Ctx) (cmd : String) (mkErr : Int → String → Error) :
    Except Error Unit × List Ev × Ctx :=
  match create_exec w c cmd false with
  | (.error e, tr, c1) => (.error e, tr, c1)
  | (.ok execId, tr, c1) =>
    match start_exec_detached w c1 execId with
    | (.error e, tr2) => (.error e, tr ++ tr2, c1)
    | (.ok (status, output), tr2) =>
      if status ≠ 0 then (.error (mkErr status (output.getD "")), tr ++ tr2, c1)
      else (.ok (), tr ++ tr2, c1)

/-- `Context::install_packages` (`src/docker.rs` lines 147-174): for each
whitespace-separated package, probe with the pacman search; a non-zero search
exit fails the session with `PackageDNE` before any install exec exists for
that package; otherwise install, a non-zero install exit failing with
`PackageInstall` and the last pacman error line. -/
def install_packages (w : World) (c : Ctx) (pkgs : List String) :
    Except Error Unit × List Ev × Ctx :=
  match pkgs with
  | [] => (.ok (), [], c)
  | pkg :: rest =>
    match run_step w c (searchCmd pkg) (fun _ _ => Error.PackageDNE pkg) with
    | (.error e, tr, c1) => (.error e, tr, c1)
    | (.ok _, tr, c1) =>
      match run_step w c1 (installCmd pkg)
          (fun st out => Error.PackageInstall st (get_error_from_pacman out)) with
      | (.error e, tr2, c2) => (.error e, tr ++ tr2, c2)
      | (.ok _, tr2, c2) =>
        let (r, tr3, c3) := install_packages w c2 rest
        (r, tr ++ tr2 ++ tr3, c3)

/-- `Context::install_aur_packages` (`src/docker.rs` lines 176-203): same
loop through `yay`. -/
def install_aur_packages (w : World) (c : Ctx) (pkgs : List String) :
    Except Error Unit × List Ev × Ctx :=
  match pkgs with
  | [] => (.ok (), [], c)
  | pkg :: rest =>
    match run_step w c (aurSearchCmd pkg) (fun _ _ => Error.PackageDNE pkg) with
    | (.error e, tr, c1) => (.error e, tr, c1)
    | (.ok _, tr, c1) =>
      match run_step w c1 (aurInstallCmd pkg)
          (fun st out => Error.PackageInstall st (get_error_from_pacman out)) with
      | (.error e, tr2, c2) => (.error e, tr ++ tr2, c2)
      | (.ok _, tr2, c2) =>
        let (r, tr3, c3) := install_aur_packages w c2 rest
        (r, tr ++ tr2 ++ tr3, c3)

/-- Sequencing of two stateful step results, accumulating traces and
stopping at the first error (the `?` operator of the Rust code). -/
def andThen (r : Except Error Unit × List Ev × Ctx)
    (f : Ctx → Except Error Unit × List Ev × Ctx) :
    Except Error Unit × List Ev × Ctx :=
  match r with
  | (.error e, tr, c) => (.error e, tr, c)
  | (.ok _, tr, c) =>
    let (r2, tr2, c2) := f c
    (r2, tr ++ tr2, c2)

/-- A step that is skipped because its flag is off. -/
def skip (c : Ctx) : Except Error Unit × List Ev × Ctx := (.ok (), [], c)

/-- Opening of `perform_all_enter` (`src/docker.rs` lines 261-288): pull the
image, create the container — storing the returned id in `container_id` —
and start it.  The spinner bookkeeping and the advisory `total`/`cur` step
counters are cosmetic and not modelled. -/
def setup_phase (w : World) (args : Args) (c : Ctx) :
    Except Error Unit × List Ev × Ctx :=
  match pull_image w c with
  | .error e => (.error e, [], c)
  | .ok _ =>
    match create_container w args c with
    | (.error e, tr) => (.error e, tr, c)
    | (.ok id, tr) =>
      let c1 := { c with container_id := id }
      match start_container w c1 with
      | .error e => (.error e, tr, c1)
      | .ok _ => (.ok (), tr, c1)

/-- Middle of `perform_all_enter` (`src/docker.rs` lines 289-365): the
optional provisioning steps in their fixed order — Chaotic-AUR, landware,
system update, pkgfile refresh, extra packages, extra AUR packages — each
gated on its flag, the first failure aborting the rest. -/
def provisioning_phase (w : World) (args : Args) (c : Ctx) :
    Except Error Unit × List Ev × Ctx :=
  andThen
    (if args.chaotic_aur then
       run_step w c chaoticAURCmd (fun st out => .ChaoticAUR st (get_error_from_either out))
     else skip c) (fun c1 =>
  andThen
    (if args.landware then
       run_step w c1 landwareCmd (fun st _ => .Landware st)
     else skip c1) (fun c2 =>
  andThen
    (if args.update_system then
       run_step w c2 updateSystemCmd (fun st out => .SystemUpdate st (get_error_from_pacman out))
     else skip c2) (fun c3 =>
  andThen
    (if args.update_pkgfile then
       run_step w c3 pkgfileCmd (fun st _ => .Pkgfile st)
     else skip c3) (fun c4 =>
  andThen
    (match args.extra_packages with
     | some pkgs => install_packages w c4 (splitWs pkgs)
     | none => skip c4) (fun c5 =>
  match args.extra_aur_packages with
  | some pkgs => install_aur_packages w c5 (splitWs pkgs)
  | none => skip c5)))))

/-- The primary command string (`src/docker.rs` lines 383-396): the bare
default shell gets the welcome flag; any other command list is
default-escaped per word and joined with spaces. -/
def primaryCommand (args : Args) : String :=
  if args.command = ["/usr/bin/zsh"] then "SHOW_WELCOME=true /usr/bin/zsh"
  else String.intercalate " " (args.command.map escapeDefault)

/-- Tail of `perform_all_enter` (`src/docker.rs` lines 400-412): run the
already-created primary exec attached, then delete the container; a failing
delete discards the primary exit code and becomes the session's result. -/
def finish_session (w : World) (c : Ctx) (execId : Nat) :
    Except Error Int × List Ev × Ctx :=
  match start_exec_attached w c execId with
  | (.error e, tr) => (.error e, tr, c)
  | (.ok (exit_code, _), tr) =>
    let (r, tr2, c2) := delete_container w c
    match r with
    | .error e => (.error e, tr ++ tr2, c2)
    | .ok _ => (.ok exit_code, tr ++ tr2, c2)

/-- End of `perform_all_enter` (`src/docker.rs` lines 366-412): upload the
zsh history when history-sync-by-copy is requested (resolving the home
directory first), create the primary attached exec, then `finish_session`. -/
def primary_phase (w : World) (args : Args) (c : Ctx) :
    Except Error Int × List Ev × Ctx :=
  let copied : Except Error Unit × List Ev × Ctx :=
    if args.sync_zsh_history = ZshHistorySync.Copy then
      if ¬w.home_ok then (.error .HomeDir, [], c)
      else
        let (r, tr) := copy_file w c
        (r, tr, c)
    else (.ok (), [], c)
  match copied with
  | (.error e, tr, c1) => (.error e, tr, c1)
  | (.ok _, tr, c1) =>
    match create_exec w c1 (primaryCommand args) true with
    | (.error e, tr2, c2) => (.error e, tr ++ tr2, c2)
    | (.ok execId, tr2, c2) =>
      let (r, tr3, c3) := finish_session w c2 execId
      (r, tr ++ tr2 ++ tr3, c3)

/-- `Context::perform_all_enter` (`src/docker.rs` lines 243-413): setup,
provisioning, then the primary command and cleanup, each phase gated on the
previous one. -/
def perform_all_enter (w : World) (args : Args) (c : Ctx) :
    Except Error Int × List Ev × Ctx :=
  match setup_phase w args c with
  | (.error e, tr, c1) => (.error e, tr, c1)
  | (.ok _, tr, c1) =>
    match provisioning_phase w args c1 with
    | (.error e, tr2, c2) => (.error e, tr ++ tr2, c2)
    | (.ok _, tr2, c2) =>
      let (r, tr3, c3) := primary_phase w args c2
      (r, tr ++ tr2 ++ tr3, c3)

/-- The context `main` holds when the `select!` starts: connected when
`connect` succeeded, otherwise still the default. -/
def mainCtx (w : World) : Ctx :=
  if w.connect_ok then { Ctx.init with connected := true } else Ctx.init

/-- `main` (`src/main.rs` lines 82-136): connect (a failing connect is
reported and execution continues), then race the session against the
cancellation token.  `cancelled = true` is the run in which cancellation wins
the `select!` before the session branch starts: the container is deleted
with whatever handle is recorded and the process exits 0.  Otherwise the
session runs to its own end: on success the exit code is the primary exit
code cast to `u8`; on failure the error is reported, the container deleted
(a failing delete reported separately), and the process exits 0. -/
def mainRun (w : World) (args : Args) (cancelled : Bool) : Nat × List Ev :=
  let c1 := mainCtx w
  let tr0 : List Ev :=
    if w.connect_ok then [] else [Ev.reportError .Connection]
  if cancelled then
    match delete_container w c1 with
    | (.error e, tr, _) => (0, tr0 ++ tr ++ [Ev.reportError e])
    | (.ok _, tr, _) => (0, tr0 ++ tr)
  else
    match perform_all_enter w args c1 with
    | (.ok code, tr, _) => (u8Cast code, tr0 ++ tr)
    | (.error e, tr, c2) =>
      match delete_container w c2 with
      | (.error e2, tr2, _) =>
        (0, tr0 ++ tr ++ [Ev.reportError e] ++ tr2 ++ [Ev.reportError e2])
      | (.ok _, tr2, _) => (0, tr0 ++ tr ++ [Ev.reportError e] ++ tr2)

/-! Concrete fixtures used by witnesses and counterexamples. -/

/-- An exec whose every engine call succeeds, with no output and exit 0. -/
def okExec : ExecSpec :=
  { create_ok := true, start_ok := true, attached_shape := true,
    chunks := [], inspect_ok := true, exit_code := some 0 }

/-- A world in which every engine call succeeds. -/
def wBase : World :=
  { connect_ok := true, pull_ok := true, cwd_ok := true, home_ok := true,
    create_id := .ok "cid", start_ok := true, exec := fun _ => okExec,
    open_history_ok := true, tar_ok := true, upload_ok := true,
    tty_ok := true, resize_ok := true, raw_ok := true, stdout_ok := true,
    delete_ok := fun _ => true }

/-- The default CLI invocation: no flags, the default shell command. -/
def argsDefault : Args :=
  { verbose := false, update_system := false, update_pkgfile := false,
    ro_root := false, ro_cwd := false, disable_cwd_mount := false,
    no_network := false, extra_packages := none, extra_aur_packages := none,
    privileged := false, chaotic_aur := false, landware := false,
    command := ["/usr/bin/zsh"], sync_zsh_history := .Disabled }

/-- Like `wBase` but the primary command exits with guest code 256. -/
def w256 : World :=
  { wBase with exec := fun _ => { okExec with exit_code := some 256 } }

/-- Like `wBase` but the image pull fails. -/
def wPullFail : World := { wBase with pull_ok := false }

/-- Like `wBase` but every `remove_container` call fails and the primary
command exits with guest code 7. -/
def wDelFail : World :=
  { wBase with delete_ok := (fun _ => false), exec := fun _ => { okExec with exit_code := some 7 } }

/-- Like `wBase` but the first exec (a provisioning step in the runs that use
it) exits 1 while later execs succeed. -/
def wStep1Fail : World :=
  { wBase with exec := fun n => if n = 0 then { okExec with exit_code := some 1 } else okExec }

/-- Like `wBase` but the primary exec emits one output chunk. -/
def wChunk : World :=
  { wBase with exec := fun _ => { okExec with chunks := [.ok "hi"] } }

/-- The default invocation plus `--update-system`. -/
def argsUpdate : Args := { argsDefault with update_system := true }

/-- A connected context, as right after a successful `connect`. -/
def cConn : Ctx := { Ctx.init with connected := true }

/-- The scenario's first pull event: layer `"abc123"` at 50 of 100 bytes. -/
def evProgress : PullEvent :=
  { id := some "abc123",
    progress_detail := some { current := some 50, total := some 100 },
    status := none }

/-- The scenario's second pull event: layer `"abc123"` reports the completion
marker. -/
def evComplete : PullEvent :=
  { id := some "abc123", progress_detail := none, status := some "Pull complete" }

/-! Helper lemmas about the bars map. -/

theorem barKeys_cons (a : String) (b : Bar) (rest : BarsMap) :
    barKeys ((a, b) :: rest) = a :: barKeys rest := rfl

theorem barKeys_setBar (m : BarsMap) (k : String) (b : Bar) :
    ∀ id, id ∈ barKeys (setBar m k b) → id ∈ barKeys m ∨ id = k := by
  induction m with
  | nil =>
    intro id h
    rw [show setBar [] k b = [(k, b)] from rfl, barKeys_cons] at h
    rcases List.mem_cons.mp h with h | h
    · exact Or.inr h
    · simp [barKeys] at h
  | cons kb rest ih =>
    intro id h
    obtain ⟨a, bb⟩ := kb
    by_cases hk : a = k
    · rw [show setBar ((a, bb) :: rest) k b = (a, b) :: rest from by
        simp [setBar, hk], barKeys_cons] at h
      rcases List.mem_cons.mp h with h | h
      · exact Or.inr (h.trans hk)
      · exact Or.inl (by rw [barKeys_cons]; exact List.mem_cons_of_mem a h)
    · rw [show setBar ((a, bb) :: rest) k b = (a, bb) :: setBar rest k b from by
        simp [setBar, hk], barKeys_cons] at h
      rcases List.mem_cons.mp h with h | h
      · exact Or.inl (by rw [barKeys_cons, h]; exact List.mem_cons_self a _)
      · rcases ih id h with h2 | h2
        · exact Or.inl (by rw [barKeys_cons]; exact List.mem_cons_of_mem a h2)
        · exact Or.inr h2

theorem barKeys_eraseBar (m : BarsMap) (k : String) :
    ∀ id, id ∈ barKeys (eraseBar m k) → id ∈ barKeys m := by
  induction m with
  | nil => intro id h; exact h
  | cons kb rest ih =>
    intro id h
    obtain ⟨a, bb⟩ := kb
    by_cases hk : a = k
    · rw [show eraseBar ((a, bb) :: rest) k = rest from by simp [eraseBar, hk]] at h
      rw [barKeys_cons]
      exact List.mem_cons_of_mem a h
    · rw [show eraseBar ((a, bb) :: rest) k = (a, bb) :: eraseBar rest k from by
        simp [eraseBar, hk], barKeys_cons] at h
      rw [barKeys_cons]
      rcases List.mem_cons.mp h with h | h
      · rw [h]; exact List.mem_cons_self a _
      · exact List.mem_cons_of_mem a (ih id h)

theorem lookupBar_setBar (m : BarsMap) (k : String) (b : Bar) :
    lookupBar (setBar m k b) k = some b := by
  induction m with
  | nil => simp [setBar, lookupBar]
  | cons kb rest ih =>
    obtain ⟨a, bb⟩ := kb
    by_cases hk : a = k
    · simp [setBar, hk, lookupBar]
    · simp [setBar, hk, lookupBar, ih]

theorem setBar_lookup_self (m : BarsMap) (k : String) (b : Bar)
    (h : lookupBar m k = some b) : setBar m k b = m := by
  induction m with
  | nil => simp [lookupBar] at h
  | cons kb rest ih =>
    obtain ⟨a, bb⟩ := kb
    by_cases hk : a = k
    · simp [lookupBar, hk] at h
      simp [setBar, hk, h]
    · simp [lookupBar, hk] at h
      simp [setBar, hk, ih h]

theorem eraseBar_not_mem (m : BarsMap) (k : String)
    (hnd : (barKeys m).Nodup) : k ∉ barKeys (eraseBar m k) := by
  induction m with
  | nil => intro h; simp [eraseBar, barKeys] at h
  | cons kb rest ih =>
    obtain ⟨a, bb⟩ := kb
    rw [barKeys_cons] at hnd
    by_cases hk : a = k
    · rw [show eraseBar ((a, bb) :: rest) k = rest from by simp [eraseBar, hk]]
      intro hmem
      exact (List.nodup_cons.mp hnd).1 (hk ▸ hmem)
    · rw [show eraseBar ((a, bb) :: rest) k = (a, bb) :: eraseBar rest k from by
        simp [eraseBar, hk], barKeys_cons]
      intro hmem
      rcases List.mem_cons.mp hmem with h | h
      · exact hk h.symm
      · exact ih (List.nodup_cons.mp hnd).2 h

theorem applyProgress_keys (m : BarsMap) (id : String)
    (pd : Option ProgressDetail) :
    ∀ k, k ∈ barKeys (applyProgress m id pd) → k ∈ barKeys m ∨ k = id := by
  intro k h
  cases pd with
  | none => exact Or.inl h
  | some p =>
    cases hc : p.current with
    | none => rw [applyProgress, hc] at h; exact Or.inl h
    | some cur =>
      cases ht : p.total with
      | none => rw [applyProgress, hc, ht] at h; exact Or.inl h
      | some total =>
        rw [applyProgress, hc, ht] at h
        exact barKeys_setBar _ _ _ k h

theorem applyStatus_keys (m : BarsMap) (id : String) (pb : Bar)
    (st : Option String) :
    ∀ k, k ∈ barKeys (applyStatus m id pb st) → k ∈ barKeys m ∨ k = id := by
  intro k h
  cases st with
  | none => exact Or.inl h
  | some msg =>
    rw [applyStatus] at h
    by_cases hm : msg = "Pull complete"
    · rw [if_pos hm] at h
      exact Or.inl (barKeys_eraseBar _ _ k h)
    · rw [if_neg hm] at h
      cases hl : pb.length with
      | none =>
        rw [hl] at h
        exact barKeys_setBar _ _ _ k h
      | some mx =>
        rw [hl] at h
        cases he : msg.endsWith " complete" with
        | true => rw [he] at h; exact barKeys_setBar _ _ _ k h
        | false => rw [he] at h; exact barKeys_setBar _ _ _ k h

theorem processEvent_keys (m : BarsMap) (e : PullEvent) :
    ∀ k, k ∈ barKeys (processEvent m e) →
      k ∈ barKeys m ∨ (k ≠ "latest" ∧ e.id = some k) := by
  obtain ⟨oid, opd, ost⟩ := e
  intro k h
  cases oid with
  | none => exact Or.inl h
  | some id =>
    by_cases hl : id = "latest"
    · rw [show processEvent m ⟨some id, opd, ost⟩ = m from by
        simp [processEvent, hl]] at h
      exact Or.inl h
    · rw [show processEvent m ⟨some id, opd, ost⟩ =
          applyStatus
            (setBar (applyProgress m id opd) id
              ((lookupBar (applyProgress m id opd) id).getD Bar.noLength))
            id ((lookupBar (applyProgress m id opd) id).getD Bar.noLength) ost from by
        simp [processEvent, hl]] at h
      rcases applyStatus_keys _ _ _ _ k h with h2 | h2
      · rcases barKeys_setBar _ _ _ k h2 with h3 | h3
        · rcases applyProgress_keys _ _ _ k h3 with h4 | h4
          · exact Or.inl h4
          · subst h4; exact Or.inr ⟨hl, rfl⟩
        · subst h3; exact Or.inr ⟨hl, rfl⟩
      · subst h2; exact Or.inr ⟨hl, rfl⟩

theorem processAll_keys (evs : List PullEvent) (m : BarsMap) :
    ∀ k, k ∈ barKeys (evs.foldl processEvent m) →
      k ∈ barKeys m ∨ (k ≠ "latest" ∧ ∃ e, e ∈ evs ∧ e.id = some k) := by
  induction evs generalizing m with
  | nil => intro k h; exact Or.inl h
  | cons e rest ih =>
    intro k h
    rcases ih (processEvent m e) k h with h1 | ⟨hne, e2, he2, hid2⟩
    · rcases processEvent_keys m e k h1 with h2 | ⟨hne, heq⟩
      · exact Or.inl h2
      · exact Or.inr ⟨hne, e, by simp, heq⟩
    · exact Or.inr ⟨hne, e2, by simp [he2], hid2⟩

/-- C5: for every finite sequence of pull events, every indicator present
after the whole run is finalized (stream-end finalization reaches every
still-open indicator), and every id the aggregator ever tracks to the end of
the stream originates in an event that carried that id, which is never the
literal `"latest"` — so an event with an absent id or id `"latest"` never
produces a tracked indicator. -/
theorem c5_stream_end_finalized_latest_never_tracked (evs : List PullEvent) :
    (∀ kb, kb ∈ pullRun evs → kb.2.cleared = true) ∧
    (∀ id, id ∈ barKeys (processAll evs) →
        id ≠ "latest" ∧ ∃ e, e ∈ evs ∧ e.id = some id) := by
  constructor
  · intro kb h
    unfold pullRun finalizeAll at h
    rcases List.mem_map.mp h with ⟨ab, _, rfl⟩
    rfl
  · intro id h
    rcases processAll_keys evs [] id h with h1 | h2
    · simp [barKeys] at h1
    · exact h2

/-- Witness for C5 at the concrete one-event stream `[evProgress]`. -/
theorem c5_witness :
    (("abc123",
        ({ length := some 100, pos := 50, message := "", cleared := true } : Bar))
          : String × Bar).2.cleared = true ∧
    ("abc123" ≠ "latest" ∧ ∃ e, e ∈ [evProgress] ∧ e.id = some "abc123") :=
  ⟨(c5_stream_end_finalized_latest_never_tracked [evProgress]).1 _ (by decide),
   (c5_stream_end_finalized_latest_never_tracked [evProgress]).2 "abc123" (by decide)⟩

/-- C6: for a tracked layer (bar `pb` under key `id`) receiving an event that
carries only status text: the literal `"Pull complete"` finalizes and
discards the indicator (the key is gone afterwards); other text ending in
`" complete"` with the total length known snaps the position to the length;
any other text — including a `" complete"` suffix with unknown length — is
stored as the displayed status.  The final conjuncts check the concrete
scenario: layer `"abc123"` at current=50,total=100 is tracked as 50/100, and
after the `"Pull complete"` event no residual entry remains. -/
theorem c6_status_text_behavior (m : BarsMap) (e : PullEvent) (id : String)
    (pb : Bar) (msg : String)
    (hnd : (barKeys m).Nodup)
    (hid : e.id = some id) (hlatest : id ≠ "latest")
    (hpd : e.progress_detail = none)
    (htracked : lookupBar m id = some pb)
    (hst : e.status = some msg) :
    (msg = "Pull complete" → id ∉ barKeys (processEvent m e)) ∧
    (msg ≠ "Pull complete" → ∀ mx, pb.length = some mx →
        msg.endsWith " complete" = true →
        lookupBar (processEvent m e) id = some { pb with pos := mx }) ∧
    (msg ≠ "Pull complete" →
        (pb.length = none ∨ msg.endsWith " complete" = false) →
        lookupBar (processEvent m e) id = some { pb with message := msg }) ∧
    processAll [evProgress, evComplete] = [] ∧
    processAll [evProgress] =
      [("abc123", { length := some 100, pos := 50, message := "", cleared := false })] := by
  obtain ⟨oid, opd, ost⟩ := e
  change oid = some id at hid
  change opd = none at hpd
  change ost = some msg at hst
  subst hid; subst hpd; subst hst
  have hpe : processEvent m ⟨some id, none, some msg⟩ = applyStatus m id pb (some msg) := by
    rw [show processEvent m ⟨some id, none, some msg⟩ =
        applyStatus (setBar m id ((lookupBar m id).getD Bar.noLength)) id
          ((lookupBar m id).getD Bar.noLength) (some msg) from by
      simp [processEvent, hlatest, applyProgress]]
    rw [htracked]
    simp only [Option.getD_some]
    rw [setBar_lookup_self m id pb htracked]
  refine ⟨?_, ?_, ?_, by decide, by decide⟩
  · intro hm
    rw [hpe, show applyStatus m id pb (some msg) = eraseBar m id from by
      simp [applyStatus, hm]]
    exact eraseBar_not_mem m id hnd
  · intro hm mx hlen hend
    rw [hpe, show applyStatus m id pb (some msg) = setBar m id { pb with pos := mx } from by
      simp [applyStatus, hm, hlen, hend]]
    exact lookupBar_setBar m id _
  · intro hm hcase
    have happ : applyStatus m id pb (some msg) = setBar m id { pb with message := msg } := by
      rcases hcase with hnone | hfalse
      · simp [applyStatus, hm, hnone]
      · cases hlen2 : pb.length <;> simp [applyStatus, hm, hfalse, hlen2]
    rw [hpe, happ]
    exact lookupBar_setBar m id _

/-- The bars map holding exactly the scenario's tracked layer. -/
def mScenario : BarsMap :=
  [("abc123", { length := some 100, pos := 50, message := "", cleared := false })]

/-- Witness for C6 at the concrete scenario input. -/
theorem c6_witness : "abc123" ∉ barKeys (processEvent mScenario evComplete) :=
  (c6_status_text_behavior mScenario evComplete "abc123"
      { length := some 100, pos := 50, message := "", cleared := false } "Pull complete"
      (by decide) rfl (by decide) rfl (by decide) rfl).1 rfl

/-! Trace observations and classification of the events each part of the
session can emit. -/

/-- Discriminator for successful create-container events. -/
def isCreateOkEv : Ev → Bool
  | .createOk _ => true
  | _ => false

/-- Discriminator for remove-container calls. -/
def isRemoveEv : Ev → Bool
  | .remove _ => true
  | _ => false

/-- Number of successful create-container calls recorded in a trace. -/
def countCreateOk (tr : List Ev) : Nat := tr.countP isCreateOkEv

/-- Number of remove-container calls recorded in a trace. -/
def countRemove (tr : List Ev) : Nat := tr.countP isRemoveEv

/-- A command vector of the `<shell> -c <command>` shape that `create_exec`
always builds. -/
def isWrapped : List String → Bool
  | [a, b, _] => a = "/usr/bin/zsh" && b = "-c"
  | _ => false

/-- Events a batched provisioning invocation can emit: a wrapped, detached
exec creation as user `"tempsystem"`, a detached exec start, or an exec
inspection — in particular no create/remove-container call, no attached
exec, no upload. -/
def stepEv : Ev → Bool
  | .execCreate cmd u a _ => isWrapped cmd && u = "tempsystem" && a = false
  | .execStart _ a => a = false
  | .inspect _ => true
  | _ => false

/-- Events the setup phase can emit: only create-container outcomes. -/
def setupEv : Ev → Bool
  | .createOk _ => true
  | .createFail => true
  | _ => false

/-- Events the primary phase can emit, given the container handle `cid` it
operates on: history upload, a wrapped exec creation as `"tempsystem"`, exec
start/resize/write/inspect traffic, or a remove of exactly `cid`. -/
def primaryEv (cid : String) : Ev → Bool
  | .upload => true
  | .execCreate cmd u _ _ => isWrapped cmd && u = "tempsystem"
  | .execStart _ _ => true
  | .resize _ => true
  | .write _ => true
  | .inspect _ => true
  | .remove h => h = cid
  | _ => false

/-- All events of a trace satisfy the classifier `p`. -/
def All (p : Ev → Bool) (tr : List Ev) : Prop := ∀ e ∈ tr, p e = true

theorem All_nil (p : Ev → Bool) : All p [] := by
  intro e he; simp at he

theorem All_append (p : Ev → Bool) (l1 l2 : List Ev)
    (h1 : All p l1) (h2 : All p l2) : All p (l1 ++ l2) := by
  intro e he
  rcases List.mem_append.mp he with h | h
  · exact h1 e h
  · exact h2 e h

theorem isWrapped_wrapCmd (s : String) : isWrapped (wrapCmd s) = true := by
  simp [isWrapped, wrapCmd]

/-! Shapes of the traces and contexts the primitive operations produce. -/

theorem create_exec_trace (w : World) (c : Ctx) (cmd : String) (a : Bool) :
    (create_exec w c cmd a).2.1 = [] ∨
    (create_exec w c cmd a).2.1 =
      [Ev.execCreate (wrapCmd cmd) "tempsystem" a c.nextExec] := by
  rw [create_exec]
  by_cases h : c.connected
  · by_cases h2 : (w.exec c.nextExec).create_ok <;> simp [h, h2]
  · simp [h]

theorem create_exec_ctx (w : World) (c : Ctx) (cmd : String) (a : Bool) :
    (create_exec w c cmd a).2.2 = c ∨
    (create_exec w c cmd a).2.2 = { c with nextExec := c.nextExec + 1 } := by
  rw [create_exec]
  by_cases h : c.connected
  · by_cases h2 : (w.exec c.nextExec).create_ok <;> simp [h, h2]
  · simp [h]

theorem start_exec_detached_trace (w : World) (c : Ctx) (i : Nat) :
    (start_exec_detached w c i).2 = [] ∨
    (start_exec_detached w c i).2 = [Ev.execStart i false] ∨
    (start_exec_detached w c i).2 = [Ev.execStart i false, Ev.inspect i] := by
  rw [start_exec_detached]
  by_cases h : c.connected
  · by_cases h2 : (w.exec i).start_ok
    · by_cases h3 : (w.exec i).attached_shape
      · by_cases h4 : (w.exec i).inspect_ok <;> simp [h, h2, h3, h4]
      · simp [h, h2, h3]
    · simp [h, h2]
  · simp [h]

theorem delete_container_trace (w : World) (c : Ctx) :
    (delete_container w c).2.1 = [] ∨
    (delete_container w c).2.1 = [Ev.remove c.container_id] := by
  rw [delete_container]
  by_cases h : c.connected
  · by_cases h2 : w.delete_ok c.deleteCalls <;> simp [h, h2]
  · simp [h]

theorem delete_container_ctx (w : World) (c : Ctx) :
    (delete_container w c).2.2 = c ∨
    (delete_container w c).2.2 = { c with deleteCalls := c.deleteCalls + 1 } := by
  rw [delete_container]
  by_cases h : c.connected
  · by_cases h2 : w.delete_ok c.deleteCalls <;> simp [h, h2]
  · simp [h]

theorem copy_file_trace (w : World) (c : Ctx) :
    (copy_file w c).2 = [] ∨ (copy_file w c).2 = [Ev.upload] := by
  rw [copy_file]
  by_cases h : c.connected
  · by_cases h2 : w.open_history_ok
    · by_cases h3 : w.tar_ok
      · by_cases h4 : w.upload_ok <;> simp [h, h2, h3, h4]
      · simp [h, h2, h3]
    · simp [h, h2]
  · simp [h]

theorem create_exec_all_step (w : World) (c : Ctx) (cmd : String) :
    All stepEv (create_exec w c cmd false).2.1 := by
  rcases create_exec_trace w c cmd false with h | h <;> rw [h]
  · exact All_nil _
  · intro e he
    rw [List.mem_singleton.mp he]
    simp [stepEv, isWrapped_wrapCmd]

theorem start_exec_detached_all_step (w : World) (c : Ctx) (i : Nat) :
    All stepEv (start_exec_detached w c i).2 := by
  rcases start_exec_detached_trace w c i with h | h | h <;> rw [h] <;> intro e he
  · simp at he
  · rw [List.mem_singleton.mp he]; simp [stepEv]
  · rcases List.mem_cons.mp he with h2 | h2
    · rw [h2]; simp [stepEv]
    · rw [List.mem_singleton.mp h2]; simp [stepEv]

theorem run_step_all (w : World) (c : Ctx) (cmd : String)
    (f : Int → String → Error) :
    All stepEv (run_step w c cmd f).2.1 := by
  rw [run_step]
  split
  · rename_i e tr c1 heq
    have h := create_exec_all_step w c cmd
    rw [heq] at h; exact h
  · rename_i n tr c1 heq
    have h1 := create_exec_all_step w c cmd
    rw [heq] at h1
    split
    · rename_i e tr2 heq2
      have h2 := start_exec_detached_all_step w c1 n
      rw [heq2] at h2
      exact All_append _ _ _ h1 h2
    · rename_i status output tr2 heq2
      have h2 := start_exec_detached_all_step w c1 n
      rw [heq2] at h2
      split
      · exact All_append _ _ _ h1 h2
      · exact All_append _ _ _ h1 h2

theorem install_packages_all (w : World) (pkgs : List String) :
    ∀ c, All stepEv (install_packages w c pkgs).2.1 := by
  induction pkgs with
  | nil => intro c; exact All_nil _
  | cons pkg rest ih =>
    intro c
    rw [install_packages]
    split
    · rename_i e tr1 c1 heq
      have h := run_step_all w c (searchCmd pkg) (fun _ _ => Error.PackageDNE pkg)
      rw [heq] at h; exact h
    · rename_i u tr1 c1 heq
      have h1 := run_step_all w c (searchCmd pkg) (fun _ _ => Error.PackageDNE pkg)
      rw [heq] at h1
      split
      · rename_i e tr2 c2 heq2
        have h2 := run_step_all w c1 (installCmd pkg)
          (fun st out => Error.PackageInstall st (get_error_from_pacman out))
        rw [heq2] at h2
        exact All_append _ _ _ h1 h2
      · rename_i u2 tr2 c2 heq2
        have h2 := run_step_all w c1 (installCmd pkg)
          (fun st out => Error.PackageInstall st (get_error_from_pacman out))
        rw [heq2] at h2
        have h3 := ih c2
        exact All_append _ _ _ (All_append _ _ _ h1 h2) h3

theorem install_aur_packages_all (w : World) (pkgs : List String) :
    ∀ c, All stepEv (install_aur_packages w c pkgs).2.1 := by
  induction pkgs with
  | nil => intro c; exact All_nil _
  | cons pkg rest ih =>
    intro c
    rw [install_aur_packages]
    split
    · rename_i e tr1 c1 heq
      have h := run_step_all w c (aurSearchCmd pkg) (fun _ _ => Error.PackageDNE pkg)
      rw [heq] at h; exact h
    · rename_i u tr1 c1 heq
      have h1 := run_step_all w c (aurSearchCmd pkg) (fun _ _ => Error.PackageDNE pkg)
      rw [heq] at h1
      split
      · rename_i e tr2 c2 heq2
        have h2 := run_step_all w c1 (aurInstallCmd pkg)
          (fun st out => Error.PackageInstall st (get_error_from_pacman out))
        rw [heq2] at h2
        exact All_append _ _ _ h1 h2
      · rename_i u2 tr2 c2 heq2
        have h2 := run_step_all w c1 (aurInstallCmd pkg)
          (fun st out => Error.PackageInstall st (get_error_from_pacman out))
        rw [heq2] at h2
        have h3 := ih c2
        exact All_append _ _ _ (All_append _ _ _ h1 h2) h3

theorem andThen_all (p : Ev → Bool) (r : Except Error Unit × List Ev × Ctx)
    (f : Ctx → Except Error Unit × List Ev × Ctx)
    (h1 : All p r.2.1) (h2 : ∀ c, All p (f c).2.1) :
    All p (andThen r f).2.1 := by
  rcases r with ⟨r0, tr, c⟩
  cases r0 with
  | error e => exact h1
  | ok u =>
    show All p (tr ++ (f c).2.1)
    exact All_append _ _ _ h1 (h2 c)

theorem provisioning_phase_all (w : World) (args : Args) (c : Ctx) :
    All stepEv (provisioning_phase w args c).2.1 := by
  rw [provisioning_phase]
  apply andThen_all
  · by_cases h : args.chaotic_aur <;> simp [h, skip]
    · exact run_step_all _ _ _ _
    · exact All_nil _
  intro c1
  apply andThen_all
  · by_cases h : args.landware <;> simp [h, skip]
    · exact run_step_all _ _ _ _
    · exact All_nil _
  intro c2
  apply andThen_all
  · by_cases h : args.update_system <;> simp [h, skip]
    · exact run_step_all _ _ _ _
    · exact All_nil _
  intro c3
  apply andThen_all
  · by_cases h : args.update_pkgfile <;> simp [h, skip]
    · exact run_step_all _ _ _ _
    · exact All_nil _
  intro c4
  apply andThen_all
  · cases h : args.extra_packages with
    | none => simp [skip]; exact All_nil _
    | some pkgs => simp; exact install_packages_all _ _ _
  intro c5
  cases h : args.extra_aur_packages with
  | none => simp [skip]; exact All_nil _
  | some pkgs => simp; exact install_aur_packages_all _ _ _

/-- The connection flag and the recorded container handle, which the exec
and provisioning machinery never changes. -/
def CtxSame (c c2 : Ctx) : Prop :=
  c2.connected = c.connected ∧ c2.container_id = c.container_id

theorem CtxSame_refl (c : Ctx) : CtxSame c c := ⟨rfl, rfl⟩

theorem CtxSame_trans {a b c : Ctx} (h1 : CtxSame a b) (h2 : CtxSame b c) :
    CtxSame a c := ⟨h2.1.trans h1.1, h2.2.trans h1.2⟩

theorem create_exec_same (w : World) (c : Ctx) (cmd : String) (a : Bool) :
    CtxSame c (create_exec w c cmd a).2.2 := by
  rcases create_exec_ctx w c cmd a with h | h <;> rw [h]
  · exact CtxSame_refl c
  · exact ⟨rfl, rfl⟩

theorem delete_container_same (w : World) (c : Ctx) :
    CtxSame c (delete_container w c).2.2 := by
  rcases delete_container_ctx w c with h | h <;> rw [h]
  · exact CtxSame_refl c
  · exact ⟨rfl, rfl⟩

theorem run_step_same (w : World) (c : Ctx) (cmd : String)
    (f : Int → String → Error) :
    CtxSame c (run_step w c cmd f).2.2 := by
  rw [run_step]
  split
  · rename_i e tr c1 heq
    have h := create_exec_same w c cmd false; rw [heq] at h; exact h
  · rename_i n tr c1 heq
    have h := create_exec_same w c cmd false; rw [heq] at h
    split
    · rename_i e tr2 heq2; exact h
    · rename_i status output tr2 heq2
      split <;> exact h

theorem install_packages_same (w : World) (pkgs : List String) :
    ∀ c, CtxSame c (install_packages w c pkgs).2.2 := by
  induction pkgs with
  | nil => intro c; exact CtxSame_refl c
  | cons pkg rest ih =>
    intro c
    rw [install_packages]
    split
    · rename_i e tr1 c1 heq
      have h := run_step_same w c (searchCmd pkg) (fun _ _ => Error.PackageDNE pkg)
      rw [heq] at h; exact h
    · rename_i u tr1 c1 heq
      have h1 := run_step_same w c (searchCmd pkg) (fun _ _ => Error.PackageDNE pkg)
      rw [heq] at h1
      split
      · rename_i e tr2 c2 heq2
        have h2 := run_step_same w c1 (installCmd pkg)
          (fun st out => Error.PackageInstall st (get_error_from_pacman out))
        rw [heq2] at h2
        exact CtxSame_trans h1 h2
      · rename_i u2 tr2 c2 heq2
        have h2 := run_step_same w c1 (installCmd pkg)
          (fun st out => Error.PackageInstall st (get_error_from_pacman out))
        rw [heq2] at h2
        exact CtxSame_trans (CtxSame_trans h1 h2) (ih c2)

theorem install_aur_packages_same (w : World) (pkgs : List String) :
    ∀ c, CtxSame c (install_aur_packages w c pkgs).2.2 := by
  induction pkgs with
  | nil => intro c; exact CtxSame_refl c
  | cons pkg rest ih =>
    intro c
    rw [install_aur_packages]
    split
    · rename_i e tr1 c1 heq
      have h := run_step_same w c (aurSearchCmd pkg) (fun _ _ => Error.PackageDNE pkg)
      rw [heq] at h; exact h
    · rename_i u tr1 c1 heq
      have h1 := run_step_same w c (aurSearchCmd pkg) (fun _ _ => Error.PackageDNE pkg)
      rw [heq] at h1
      split
      · rename_i e tr2 c2 heq2
        have h2 := run_step_same w c1 (aurInstallCmd pkg)
          (fun st out => Error.PackageInstall st (get_error_from_pacman out))
        rw [heq2] at h2
        exact CtxSame_trans h1 h2
      · rename_i u2 tr2 c2 heq2
        have h2 := run_step_same w c1 (aurInstallCmd pkg)
          (fun st out => Error.PackageInstall st (get_error_from_pacman out))
        rw [heq2] at h2
        exact CtxSame_trans (CtxSame_trans h1 h2) (ih c2)

theorem andThen_same (c0 : Ctx) (r : Except Error Unit × List Ev × Ctx)
    (f : Ctx → Except Error Unit × List Ev × Ctx)
    (h1 : CtxSame c0 r.2.2) (h2 : ∀ c, CtxSame c (f c).2.2) :
    CtxSame c0 (andThen r f).2.2 := by
  rcases r with ⟨r0, tr, c⟩
  cases r0 with
  | error e => exact h1
  | ok u =>
    show CtxSame c0 (f c).2.2
    exact CtxSame_trans h1 (h2 c)

theorem provisioning_phase_same (w : World) (args : Args) (c : Ctx) :
    CtxSame c (provisioning_phase w args c).2.2 := by
  rw [provisioning_phase]
  apply andThen_same
  · by_cases h : args.chaotic_aur <;> simp [h, skip]
    · exact run_step_same _ _ _ _
    · exact CtxSame_refl _
  intro c1
  apply andThen_same
  · by_cases h : args.landware <;> simp [h, skip]
    · exact run_step_same _ _ _ _
    · exact CtxSame_refl _
  intro c2
  apply andThen_same
  · by_cases h : args.update_system <;> simp [h, skip]
    · exact run_step_same _ _ _ _
    · exact CtxSame_refl _
  intro c3
  apply andThen_same
  · by_cases h : args.update_pkgfile <;> simp [h, skip]
    · exact run_step_same _ _ _ _
    · exact CtxSame_refl _
  intro c4
  apply andThen_same
  · cases h : args.extra_packages with
    | none => simp [skip]; exact CtxSame_refl _
    | some pkgs => simp; exact install_packages_same _ _ _
  intro c5
  cases h : args.extra_aur_packages with
  | none => simp [skip]; exact CtxSame_refl _
  | some pkgs => simp; exact install_aur_packages_same _ _ _

theorem create_container_cases (w : World) (args : Args) (c : Ctx) :
    (∃ e, create_container w args c = (.error e, [])) ∨
    (∃ e, create_container w args c = (.error e, [Ev.createFail])) ∨
    (∃ id, w.create_id = Except.ok id ∧
        create_container w args c = (.ok id, [Ev.createOk id])) := by
  rw [create_container]
  by_cases h1 : c.connected
  · by_cases h2 : args.disable_cwd_mount = false ∧ w.cwd_ok = false
    · left; exact ⟨.GetCWD, by simp [h1, h2]⟩
    · by_cases h3 : args.sync_zsh_history = ZshHistorySync.Mount ∧ w.home_ok = false
      · left; exact ⟨.HomeDir, by simp [h1, h2, h3]⟩
      · cases hcid : w.create_id with
        | error u =>
          right; left; exact ⟨.ContainerCreate, by simp [h1, h2, h3, hcid]⟩
        | ok id =>
          right; right; exact ⟨id, rfl, by simp [h1, h2, h3, hcid]⟩
  · left; exact ⟨.NotConnected, by simp [h1]⟩

theorem setup_phase_cases (w : World) (args : Args) (c : Ctx) :
    (∃ e, setup_phase w args c = (.error e, [], c)) ∨
    (∃ e, setup_phase w args c = (.error e, [Ev.createFail], c)) ∨
    (∃ id r, w.create_id = Except.ok id ∧
        setup_phase w args c = (r, [Ev.createOk id], { c with container_id := id })) := by
  rw [setup_phase]
  split
  · rename_i e heq
    left; exact ⟨e, rfl⟩
  · rename_i u heq
    rcases create_container_cases w args c with ⟨e, hcc⟩ | ⟨e, hcc⟩ | ⟨id, hcid, hcc⟩
    · rw [hcc]; left; exact ⟨e, rfl⟩
    · rw [hcc]; right; left; exact ⟨e, rfl⟩
    · rw [hcc]
      right; right
      refine ⟨id, ?_, hcid, ?_⟩
      · cases hst : start_container w { c with container_id := id } with
        | error e => exact .error e
        | ok u2 => exact .ok ()
      · cases hst : start_container w { c with container_id := id } with
        | error e => simp [hst]
        | ok u2 => simp [hst]

theorem start_exec_attached_trace_shape (w : World) (c : Ctx) (i : Nat) :
    (start_exec_attached w c i).2 = [] ∨
    (start_exec_attached w c i).2 = [Ev.execStart i true] ∨
    (start_exec_attached w c i).2 = [Ev.execStart i true, Ev.resize i] ∨
    (start_exec_attached w c i).2 =
      Ev.execStart i true :: Ev.resize i ::
        ((drainOk (w.exec i).chunks).map Ev.write ++ [Ev.inspect i]) := by
  rw [start_exec_attached]
  by_cases h1 : c.connected
  · by_cases h2 : (w.exec i).start_ok
    · by_cases h3 : (w.exec i).attached_shape
      · by_cases h4 : w.tty_ok
        · by_cases h5 : w.resize_ok
          · by_cases h6 : w.raw_ok
            · by_cases h7 : w.stdout_ok = false ∧ ¬drainOk (w.exec i).chunks = []
              · right; right; left; simp [h1, h2, h3, h4, h5, h6, h7]
              · by_cases h8 : (w.exec i).inspect_ok <;>
                  (right; right; right; simp [h1, h2, h3, h4, h5, h6, h7, h8])
            · right; right; left; simp [h1, h2, h3, h4, h5, h6]
          · right; right; left; simp [h1, h2, h3, h4, h5]
        · right; left; simp [h1, h2, h3, h4]
      · right; left; simp [h1, h2, h3]
    · right; left; simp [h1, h2]
  · left; simp [h1]

theorem start_exec_attached_all (w : World) (c : Ctx) (i : Nat) (cid : String) :
    All (primaryEv cid) (start_exec_attached w c i).2 := by
  rcases start_exec_attached_trace_shape w c i with h | h | h | h <;> rw [h] <;>
    intro e he
  · simp at he
  · rw [List.mem_singleton.mp he]; simp [primaryEv]
  · rcases List.mem_cons.mp he with h2 | h2
    · rw [h2]; simp [primaryEv]
    · rw [List.mem_singleton.mp h2]; simp [primaryEv]
  · rcases List.mem_cons.mp he with h2 | h2
    · rw [h2]; simp [primaryEv]
    · rcases List.mem_cons.mp h2 with h3 | h3
      · rw [h3]; simp [primaryEv]
      · rcases List.mem_append.mp h3 with h4 | h4
        · rcases List.mem_map.mp h4 with ⟨ch, _, hch⟩
          rw [← hch]; simp [primaryEv]
        · rw [List.mem_singleton.mp h4]; simp [primaryEv]

theorem delete_container_all (w : World) (c : Ctx) :
    All (primaryEv c.container_id) (delete_container w c).2.1 := by
  rcases delete_container_trace w c with h | h <;> rw [h] <;> intro e he
  · simp at he
  · rw [List.mem_singleton.mp he]; simp [primaryEv]

theorem copy_file_all (w : World) (c : Ctx) (cid : String) :
    All (primaryEv cid) (copy_file w c).2 := by
  rcases copy_file_trace w c with h | h <;> rw [h] <;> intro e he
  · simp at he
  · rw [List.mem_singleton.mp he]; simp [primaryEv]

theorem create_exec_all_primary (w : World) (c : Ctx) (cmd : String) (a : Bool)
    (cid : String) :
    All (primaryEv cid) (create_exec w c cmd a).2.1 := by
  rcases create_exec_trace w c cmd a with h | h <;> rw [h] <;> intro e he
  · simp at he
  · rw [List.mem_singleton.mp he]; simp [primaryEv, isWrapped_wrapCmd]

theorem finish_session_all (w : World) (c : Ctx) (i : Nat) :
    All (primaryEv c.container_id) (finish_session w c i).2.1 := by
  rw [finish_session]
  split
  · rename_i e tr heq
    have h := start_exec_attached_all w c i c.container_id
    rw [heq] at h; exact h
  · rename_i code out tr heq
    have h1 := start_exec_attached_all w c i c.container_id
    rw [heq] at h1
    rcases hd : delete_container w c with ⟨r2, tr2, c2⟩
    have h2 : All (primaryEv c.container_id) tr2 := by
      have h := delete_container_all w c
      rw [hd] at h; exact h
    cases r2 with
    | error e => exact All_append _ _ _ h1 h2
    | ok u => exact All_append _ _ _ h1 h2

theorem finish_session_same (w : World) (c : Ctx) (i : Nat) :
    CtxSame c (finish_session w c i).2.2 := by
  rw [finish_session]
  split
  · rename_i e tr heq
    exact CtxSame_refl c
  · rename_i code out tr heq
    rcases hd : delete_container w c with ⟨r2, tr2, c2⟩
    have h2 : CtxSame c c2 := by
      have h := delete_container_same w c
      rw [hd] at h; exact h
    cases r2 with
    | error e => exact h2
    | ok u => exact h2

theorem primary_phase_all (w : World) (args : Args) (c : Ctx) :
    All (primaryEv c.container_id) (primary_phase w args c).2.1 := by
  rw [primary_phase]
  split
  · rename_i e tr c1 heq
    by_cases hcp : args.sync_zsh_history = ZshHistorySync.Copy
    · rw [if_pos hcp] at heq
      by_cases hh : ¬w.home_ok
      · rw [if_pos hh] at heq
        injection heq with h1 h2
        injection h2 with h2 h3
        rw [← h2]; exact All_nil _
      · rw [if_neg hh] at heq
        have h := copy_file_all w c c.container_id
        injection heq with h1 h2
        injection h2 with h2 h3
        rw [← h2]
        exact h
    · rw [if_neg hcp] at heq
      injection heq with h1 h2
      injection h2 with h2 h3
      rw [← h2]; exact All_nil _
  · rename_i u tr c1 heq
    have hctr : All (primaryEv c.container_id) tr ∧ c1 = c := by
      by_cases hcp : args.sync_zsh_history = ZshHistorySync.Copy
      · rw [if_pos hcp] at heq
        by_cases hh : ¬w.home_ok
        · rw [if_pos hh] at heq; exact absurd (congrArg Prod.fst heq) (by simp)
        · rw [if_neg hh] at heq
          have h := copy_file_all w c c.container_id
          injection heq with h1 h2
          injection h2 with h2 h3
          exact ⟨h2 ▸ h, h3.symm⟩
      · rw [if_neg hcp] at heq
        injection heq with h1 h2
        injection h2 with h2 h3
        exact ⟨h2 ▸ All_nil _, h3.symm⟩
    obtain ⟨htr, rfl⟩ := hctr
    split
    · rename_i e tr2 c2 heq2
      have h := create_exec_all_primary w c1 (primaryCommand args) true c1.container_id
      rw [heq2] at h
      exact All_append _ _ _ htr h
    · rename_i execId tr2 c2 heq2
      have h2 := create_exec_all_primary w c1 (primaryCommand args) true c1.container_id
      rw [heq2] at h2
      have hsame : CtxSame c1 c2 := by
        have h := create_exec_same w c1 (primaryCommand args) true
        rw [heq2] at h; exact h
      rcases hf : finish_session w c2 execId with ⟨r3, tr3, c3⟩
      have h3 := finish_session_all w c2 execId
      rw [hf] at h3
      rw [hsame.2] at h3
      exact All_append _ _ _ (All_append _ _ _ htr h2) h3

theorem primary_phase_same (w : World) (args : Args) (c : Ctx) :
    CtxSame c (primary_phase w args c).2.2 := by
  rw [primary_phase]
  split
  · rename_i e tr c1 heq
    by_cases hcp : args.sync_zsh_history = ZshHistorySync.Copy
    · rw [if_pos hcp] at heq
      by_cases hh : ¬w.home_ok
      · rw [if_pos hh] at heq
        injection heq with h1 h2
        injection h2 with h2 h3
        rw [← h3]; exact CtxSame_refl c
      · rw [if_neg hh] at heq
        injection heq with h1 h2
        injection h2 with h2 h3
        rw [← h3]; exact CtxSame_refl c
    · rw [if_neg hcp] at heq
      injection heq with h1 h2
      injection h2 with h2 h3
      rw [← h3]; exact CtxSame_refl c
  · rename_i u tr c1 heq
    have hc1 : c1 = c := by
      by_cases hcp : args.sync_zsh_history = ZshHistorySync.Copy
      · rw [if_pos hcp] at heq
        by_cases hh : ¬w.home_ok
        · rw [if_pos hh] at heq; exact absurd (congrArg Prod.fst heq) (by simp)
        · rw [if_neg hh] at heq
          injection heq with h1 h2
          injection h2 with h2 h3
          exact h3.symm
      · rw [if_neg hcp] at heq
        injection heq with h1 h2
        injection h2 with h2 h3
        exact h3.symm
    subst hc1
    split
    · rename_i e tr2 c2 heq2
      have h := create_exec_same w c1 (primaryCommand args) true
      rw [heq2] at h; exact h
    · rename_i execId tr2 c2 heq2
      have h2 : CtxSame c1 c2 := by
        have h := create_exec_same w c1 (primaryCommand args) true
        rw [heq2] at h; exact h
      rcases hf : finish_session w c2 execId with ⟨r3, tr3, c3⟩
      have h3 := finish_session_same w c2 execId
      rw [hf] at h3
      exact CtxSame_trans h2 h3

/-- Failure kinds produced by provisioning steps, as opposed to engine,
terminal or cleanup failures. -/
def Error.isProvisioning : Error → Bool
  | .PackageDNE _ => true
  | .PackageInstall _ _ => true
  | .SystemUpdate _ _ => true
  | .ChaoticAUR _ _ => true
  | .Landware _ => true
  | .Pkgfile _ => true
  | _ => false

theorem pull_image_err (w : World) (c : Ctx) (e : Error)
    (h : pull_image w c = .error e) : e.isProvisioning = false := by
  rw [pull_image] at h
  by_cases h1 : c.connected
  · by_cases h2 : w.pull_ok
    · simp [h1, h2] at h
    · simp [h1, h2] at h; subst h; rfl
  · simp [h1] at h; subst h; rfl

theorem create_container_err (w : World) (args : Args) (c : Ctx) (e : Error)
    (h : (create_container w args c).1 = .error e) : e.isProvisioning = false := by
  rw [create_container] at h
  by_cases h1 : c.connected
  · by_cases h2 : args.disable_cwd_mount = false ∧ w.cwd_ok = false
    · simp [h1, h2] at h; subst h; rfl
    · by_cases h3 : args.sync_zsh_history = ZshHistorySync.Mount ∧ w.home_ok = false
      · simp [h1, h2, h3] at h; subst h; rfl
      · cases hcid : w.create_id with
        | error u => simp [h1, h2, h3, hcid] at h; subst h; rfl
        | ok id => simp [h1, h2, h3, hcid] at h
  · simp [h1] at h; subst h; rfl

theorem start_container_err (w : World) (c : Ctx) (e : Error)
    (h : start_container w c = .error e) : e.isProvisioning = false := by
  rw [start_container] at h
  by_cases h1 : c.connected
  · by_cases h2 : w.start_ok
    · simp [h1, h2] at h
    · simp [h1, h2] at h; subst h; rfl
  · simp [h1] at h; subst h; rfl

theorem copy_file_err (w : World) (c : Ctx) (e : Error)
    (h : (copy_file w c).1 = .error e) : e.isProvisioning = false := by
  rw [copy_file] at h
  by_cases h1 : c.connected
  · by_cases h2 : w.open_history_ok
    · by_cases h3 : w.tar_ok
      · by_cases h4 : w.upload_ok
        · simp [h1, h2, h3, h4] at h
        · simp [h1, h2, h3, h4] at h; subst h; rfl
      · simp [h1, h2, h3] at h; subst h; rfl
    · simp [h1, h2] at h; subst h; rfl
  · simp [h1] at h; subst h; rfl

theorem create_exec_err (w : World) (c : Ctx) (cmd : String) (a : Bool) (e : Error)
    (h : (create_exec w c cmd a).1 = .error e) : e.isProvisioning = false := by
  rw [create_exec] at h
  by_cases h1 : c.connected
  · by_cases h2 : (w.exec c.nextExec).create_ok
    · simp [h1, h2] at h
    · simp [h1, h2] at h; subst h; rfl
  · simp [h1] at h; subst h; rfl

theorem start_exec_attached_err (w : World) (c : Ctx) (i : Nat) (e : Error)
    (h : (start_exec_attached w c i).1 = .error e) : e.isProvisioning = false := by
  rw [start_exec_attached] at h
  by_cases h1 : c.connected
  · by_cases h2 : (w.exec i).start_ok
    · by_cases h3 : (w.exec i).attached_shape
      · by_cases h4 : w.tty_ok
        · by_cases h5 : w.resize_ok
          · by_cases h6 : w.raw_ok
            · by_cases h7 : w.stdout_ok = false ∧ ¬drainOk (w.exec i).chunks = []
              · simp [h1, h2, h3, h4, h5, h6, h7] at h; subst h; rfl
              · by_cases h8 : (w.exec i).inspect_ok
                · simp [h1, h2, h3, h4, h5, h6, h7, h8] at h
                · simp [h1, h2, h3, h4, h5, h6, h7, h8] at h; subst h; rfl
            · simp [h1, h2, h3, h4, h5, h6] at h; subst h; rfl
          · simp [h1, h2, h3, h4, h5] at h; subst h; rfl
        · simp [h1, h2, h3, h4] at h; subst h; rfl
      · simp [h1, h2, h3] at h; subst h; rfl
    · simp [h1, h2] at h; subst h; rfl
  · simp [h1] at h; subst h; rfl

theorem delete_container_err (w : World) (c : Ctx) (e : Error)
    (h : (delete_container w c).1 = .error e) : e.isProvisioning = false := by
  rw [delete_container] at h
  by_cases h1 : c.connected
  · by_cases h2 : w.delete_ok c.deleteCalls
    · simp [h1, h2] at h
    · simp [h1, h2] at h; subst h; rfl
  · simp [h1] at h; subst h; rfl

theorem finish_session_err (w : World) (c : Ctx) (i : Nat) (e : Error)
    (h : (finish_session w c i).1 = .error e) : e.isProvisioning = false := by
  rw [finish_session] at h
  split at h
  · rename_i e2 tr heq
    simp at h
    subst h
    exact start_exec_attached_err w c i e2 (by rw [heq])
  · rename_i code out tr heq
    rcases hd : delete_container w c with ⟨r2, tr2, c2⟩
    rw [hd] at h
    cases r2 with
    | error e2 =>
      simp at h
      subst h
      exact delete_container_err w c e2 (by rw [hd])
    | ok u => simp at h

theorem setup_phase_err (w : World) (args : Args) (c : Ctx) (e : Error)
    (h : (setup_phase w args c).1 = .error e) : e.isProvisioning = false := by
  rw [setup_phase] at h
  split at h
  · rename_i e2 heq
    simp at h
    subst h
    exact pull_image_err w c e2 heq
  · rename_i u heq
    rcases hcc : create_container w args c with ⟨rc, trc⟩
    rw [hcc] at h
    cases rc with
    | error e2 =>
      simp at h
      subst h
      exact create_container_err w args c e2 (by rw [hcc])
    | ok id =>
      dsimp only at h
      cases hst : start_container w { c with container_id := id } with
      | error e2 =>
        rw [hst] at h
        simp at h
        subst h
        exact start_container_err w _ e2 hst
      | ok u2 => rw [hst] at h; simp at h

theorem primary_phase_err (w : World) (args : Args) (c : Ctx) (e : Error)
    (h : (primary_phase w args c).1 = .error e) : e.isProvisioning = false := by
  rw [primary_phase] at h
  split at h
  · rename_i e2 tr c1 heq
    have he2 : e2 = e := by simpa using h
    subst he2
    by_cases hcp : args.sync_zsh_history = ZshHistorySync.Copy
    · rw [if_pos hcp] at heq
      by_cases hh : ¬w.home_ok
      · rw [if_pos hh] at heq
        injection heq with h1 h2
        injection h1 with h1
        subst h1; rfl
      · rw [if_neg hh] at heq
        injection heq with h1 h2
        exact copy_file_err w c e2 h1
    · rw [if_neg hcp] at heq
      injection heq with h1 h2
      exact absurd h1 (by simp)
  · rename_i u tr c1 heq
    split at h
    · rename_i e2 tr2 c2 heq2
      simp at h
      subst h
      exact create_exec_err w c1 (primaryCommand args) true e2 (by rw [heq2])
    · rename_i execId tr2 c2 heq2
      rcases hf : finish_session w c2 execId with ⟨r3, tr3, c3⟩
      rw [hf] at h
      cases r3 with
      | error e3 =>
        simp at h
        subst h
        exact finish_session_err w c2 execId e3 (by rw [hf])
      | ok k => simp at h

/-! Counting the create-container successes and remove-container calls of a
trace. -/

theorem countRemove_append (l1 l2 : List Ev) :
    countRemove (l1 ++ l2) = countRemove l1 + countRemove l2 :=
  List.countP_append _ _ _

theorem countCreateOk_append (l1 l2 : List Ev) :
    countCreateOk (l1 ++ l2) = countCreateOk l1 + countCreateOk l2 :=
  List.countP_append _ _ _

theorem countRemove_zero_of (tr : List Ev)
    (h : ∀ e ∈ tr, isRemoveEv e = false) : countRemove tr = 0 := by
  rw [countRemove, List.countP_eq_zero]
  intro e he
  simp [h e he]

theorem countCreateOk_zero_of (tr : List Ev)
    (h : ∀ e ∈ tr, isCreateOkEv e = false) : countCreateOk tr = 0 := by
  rw [countCreateOk, List.countP_eq_zero]
  intro e he
  simp [h e he]

theorem step_no_remove (tr : List Ev) (h : All stepEv tr) :
    ∀ e ∈ tr, isRemoveEv e = false := by
  intro e he
  have h2 := h e he
  cases e <;> simp_all [stepEv, isRemoveEv]

theorem step_no_createOk (tr : List Ev) (h : All stepEv tr) :
    ∀ e ∈ tr, isCreateOkEv e = false := by
  intro e he
  have h2 := h e he
  cases e <;> simp_all [stepEv, isCreateOkEv]

theorem primary_no_createOk (cid : String) (tr : List Ev)
    (h : All (primaryEv cid) tr) : ∀ e ∈ tr, isCreateOkEv e = false := by
  intro e he
  have h2 := h e he
  cases e <;> simp_all [primaryEv, isCreateOkEv]

theorem primary_remove_handle (cid : String) (tr : List Ev)
    (h : All (primaryEv cid) tr) :
    ∀ e ∈ tr, isRemoveEv e = true → e = Ev.remove cid := by
  intro e he hr
  cases e <;> simp [isRemoveEv] at hr
  rename_i s
  have h2 := h _ he
  simp [primaryEv] at h2
  rw [h2]

theorem start_exec_attached_no_remove (w : World) (c : Ctx) (i : Nat) :
    ∀ e ∈ (start_exec_attached w c i).2, isRemoveEv e = false := by
  rcases start_exec_attached_trace_shape w c i with h | h | h | h <;> rw [h] <;>
    intro e he
  · simp at he
  · rw [List.mem_singleton.mp he]; rfl
  · rcases List.mem_cons.mp he with h2 | h2
    · rw [h2]; rfl
    · rw [List.mem_singleton.mp h2]; rfl
  · rcases List.mem_cons.mp he with h2 | h2
    · rw [h2]; rfl
    · rcases List.mem_cons.mp h2 with h3 | h3
      · rw [h3]; rfl
      · rcases List.mem_append.mp h3 with h4 | h4
        · rcases List.mem_map.mp h4 with ⟨ch, _, hch⟩; rw [← hch]; rfl
        · rw [List.mem_singleton.mp h4]; rfl

theorem delete_container_count (w : World) (c : Ctx) :
    countRemove (delete_container w c).2.1 ≤ 1 := by
  rcases delete_container_trace w c with h | h <;> rw [h] <;>
    simp [countRemove, List.countP_cons, isRemoveEv]

theorem delete_container_ok_trace (w : World) (c : Ctx) (u : Unit)
    (h : (delete_container w c).1 = .ok u) :
    (delete_container w c).2.1 = [Ev.remove c.container_id] := by
  rw [delete_container] at h ⊢
  by_cases h1 : c.connected
  · by_cases h2 : w.delete_ok c.deleteCalls
    · simp [h1, h2]
    · simp [h1, h2] at h
  · simp [h1] at h

theorem finish_session_count (w : World) (c : Ctx) (i : Nat) :
    countRemove (finish_session w c i).2.1 ≤ 1 ∧
    (∀ k, (finish_session w c i).1 = .ok k →
        countRemove (finish_session w c i).2.1 = 1) := by
  rw [finish_session]
  split
  · rename_i e tr heq
    have hs := start_exec_attached_no_remove w c i
    rw [heq] at hs
    have h0 : countRemove tr = 0 := countRemove_zero_of tr hs
    constructor
    · show countRemove tr ≤ 1
      omega
    · intro k hk
      simp at hk
  · rename_i code out tr heq
    have hs := start_exec_attached_no_remove w c i
    rw [heq] at hs
    have h0 : countRemove tr = 0 := countRemove_zero_of tr hs
    rcases hd : delete_container w c with ⟨r2, tr2, c2⟩
    have hcnt : countRemove tr2 ≤ 1 := by
      have h := delete_container_count w c
      rw [hd] at h; exact h
    cases r2 with
    | error e =>
      constructor
      · show countRemove (tr ++ tr2) ≤ 1
        rw [countRemove_append, h0]
        omega
      · intro k hk
        simp at hk
    | ok u =>
      constructor
      · show countRemove (tr ++ tr2) ≤ 1
        rw [countRemove_append, h0]
        omega
      · intro k hk
        show countRemove (tr ++ tr2) = 1
        have hok : (delete_container w c).1 = .ok u := by rw [hd]
        have htr2 := delete_container_ok_trace w c u hok
        rw [hd] at htr2
        have htr2b : tr2 = [Ev.remove c.container_id] := htr2
        rw [countRemove_append, h0, htr2b]
        simp [countRemove, List.countP_cons, isRemoveEv]

theorem create_exec_no_remove (w : World) (c : Ctx) (cmd : String) (a : Bool) :
    ∀ e ∈ (create_exec w c cmd a).2.1, isRemoveEv e = false := by
  rcases create_exec_trace w c cmd a with h | h <;> rw [h] <;> intro e he
  · simp at he
  · rw [List.mem_singleton.mp he]; rfl

theorem copy_file_no_remove (w : World) (c : Ctx) :
    ∀ e ∈ (copy_file w c).2, isRemoveEv e = false := by
  rcases copy_file_trace w c with h | h <;> rw [h] <;> intro e he
  · simp at he
  · rw [List.mem_singleton.mp he]; rfl

theorem not_mem_createOk_of_step (tr : List Ev) (h : All stepEv tr)
    (id : String) : Ev.createOk id ∉ tr := fun hm => by
  have h2 := step_no_createOk tr h _ hm
  simp [isCreateOkEv] at h2

theorem not_mem_createOk_of_primary (cid : String) (tr : List Ev)
    (h : All (primaryEv cid) tr) (id : String) : Ev.createOk id ∉ tr := fun hm => by
  have h2 := primary_no_createOk cid tr h _ hm
  simp [isCreateOkEv] at h2

theorem primary_phase_removes (w : World) (args : Args) (c : Ctx) :
    countRemove (primary_phase w args c).2.1 ≤ 1 ∧
    (∀ k, (primary_phase w args c).1 = .ok k →
        countRemove (primary_phase w args c).2.1 = 1) := by
  rw [primary_phase]
  split
  · rename_i e tr c1 heq
    have htr : countRemove tr = 0 := by
      by_cases hcp : args.sync_zsh_history = ZshHistorySync.Copy
      · rw [if_pos hcp] at heq
        by_cases hh : ¬w.home_ok
        · rw [if_pos hh] at heq
          injection heq with h1 h2
          injection h2 with h2 h3
          rw [← h2]; rfl
        · rw [if_neg hh] at heq
          injection heq with h1 h2
          injection h2 with h2 h3
          have hcf : (copy_file w c).2 = tr := h2
          rw [← hcf]
          exact countRemove_zero_of _ (copy_file_no_remove w c)
      · rw [if_neg hcp] at heq
        injection heq with h1 h2
        injection h2 with h2 h3
        rw [← h2]; rfl
    constructor
    · show countRemove tr ≤ 1
      omega
    · intro k hk
      simp at hk
  · rename_i u tr c1 heq
    have hctx : countRemove tr = 0 ∧ c1 = c := by
      by_cases hcp : args.sync_zsh_history = ZshHistorySync.Copy
      · rw [if_pos hcp] at heq
        by_cases hh : ¬w.home_ok
        · rw [if_pos hh] at heq; exact absurd (congrArg Prod.fst heq) (by simp)
        · rw [if_neg hh] at heq
          injection heq with h1 h2
          injection h2 with h2 h3
          have hcf : (copy_file w c).2 = tr := h2
          refine ⟨?_, h3.symm⟩
          rw [← hcf]
          exact countRemove_zero_of _ (copy_file_no_remove w c)
      · rw [if_neg hcp] at heq
        injection heq with h1 h2
        injection h2 with h2 h3
        exact ⟨h2 ▸ rfl, h3.symm⟩
    obtain ⟨htr0, rfl⟩ := hctx
    split
    · rename_i e tr2 c2 heq2
      have h2 : countRemove tr2 = 0 := by
        have h := countRemove_zero_of _ (create_exec_no_remove w c1 (primaryCommand args) true)
        rw [heq2] at h; exact h
      constructor
      · show countRemove (tr ++ tr2) ≤ 1
        rw [countRemove_append, htr0, h2]
        omega
      · intro k hk
        simp at hk
    · rename_i execId tr2 c2 heq2
      have h2 : countRemove tr2 = 0 := by
        have h := countRemove_zero_of _ (create_exec_no_remove w c1 (primaryCommand args) true)
        rw [heq2] at h; exact h
      rcases hf : finish_session w c2 execId with ⟨r3, tr3, c3⟩
      have hfc := finish_session_count w c2 execId
      rw [hf] at hfc
      have h3le : countRemove tr3 ≤ 1 := hfc.1
      constructor
      · show countRemove (tr ++ tr2 ++ tr3) ≤ 1
        rw [countRemove_append, countRemove_append, htr0, h2]
        omega
      · intro k hk
        have hk2 : r3 = Except.ok k := hk
        have h3 : countRemove tr3 = 1 := hfc.2 k hk2
        show countRemove (tr ++ tr2 ++ tr3) = 1
        rw [countRemove_append, countRemove_append, htr0, h2, h3]

theorem setup_phase_ok (w : World) (args : Args) (c : Ctx) (u : Unit)
    (tr1 : List Ev) (c1 : Ctx)
    (heq : setup_phase w args c = (.ok u, tr1, c1)) :
    ∃ id, w.create_id = Except.ok id ∧ tr1 = [Ev.createOk id] ∧
      c1 = { c with container_id := id } := by
  rcases setup_phase_cases w args c with ⟨e2, hs⟩ | ⟨e2, hs⟩ | ⟨id, r, hcid, hs⟩ <;>
    rw [hs] at heq
  · exact absurd (congrArg Prod.fst heq) (by simp)
  · exact absurd (congrArg Prod.fst heq) (by simp)
  · refine ⟨id, hcid, ?_, ?_⟩
    · injection heq with h1 h2
      injection h2 with h2 h3
      exact h2.symm
    · injection heq with h1 h2
      injection h2 with h2 h3
      exact h3.symm

/-- Structural facts about a whole session run `perform_all_enter w args c`:
the connection flag is never changed; at most one remove-container call is
recorded, exactly one on the success path; every remove passes the handle
recorded in the final context; a successful create-container determines that
handle; at most one create succeeds; and the final handle is either the
caller's or the one created in this session. -/
theorem perform_spec (w : World) (args : Args) (c : Ctx) :
    (perform_all_enter w args c).2.2.connected = c.connected ∧
    countRemove (perform_all_enter w args c).2.1 ≤ 1 ∧
    (∀ k, (perform_all_enter w args c).1 = .ok k →
        countRemove (perform_all_enter w args c).2.1 = 1) ∧
    (∀ e, e ∈ (perform_all_enter w args c).2.1 → isRemoveEv e = true →
        e = Ev.remove (perform_all_enter w args c).2.2.container_id) ∧
    (∀ id, Ev.createOk id ∈ (perform_all_enter w args c).2.1 →
        (perform_all_enter w args c).2.2.container_id = id) ∧
    countCreateOk (perform_all_enter w args c).2.1 ≤ 1 ∧
    ((perform_all_enter w args c).2.2.container_id = c.container_id ∨
      Ev.createOk ((perform_all_enter w args c).2.2.container_id) ∈
        (perform_all_enter w args c).2.1) := by
  rw [perform_all_enter]
  split
  · rename_i e tr1 c1 heq
    rcases setup_phase_cases w args c with ⟨e2, hs⟩ | ⟨e2, hs⟩ | ⟨id, r, hcid, hs⟩ <;>
      rw [hs] at heq <;>
      (injection heq with hq1 hq2; injection hq2 with hq2 hq3)
    · subst hq2; subst hq3
      refine ⟨rfl, ?_, ?_, ?_, ?_, ?_, Or.inl rfl⟩
      · show countRemove ([] : List Ev) ≤ 1
        simp [countRemove]
      · intro k hk
        exact absurd hk (by simp)
      · intro e3 he3 hr
        simp at he3
      · intro id2 hid2
        simp at hid2
      · show countCreateOk ([] : List Ev) ≤ 1
        simp [countCreateOk]
    · subst hq2; subst hq3
      refine ⟨rfl, ?_, ?_, ?_, ?_, ?_, Or.inl rfl⟩
      · show countRemove [Ev.createFail] ≤ 1
        simp [countRemove, List.countP_cons, isRemoveEv]
      · intro k hk
        exact absurd hk (by simp)
      · intro e3 he3 hr
        rw [List.mem_singleton.mp he3] at hr
        simp [isRemoveEv] at hr
      · intro id2 hid2
        simp at hid2
      · show countCreateOk [Ev.createFail] ≤ 1
        simp [countCreateOk, List.countP_cons, isCreateOkEv]
    · subst hq2; subst hq3
      refine ⟨rfl, ?_, ?_, ?_, ?_, ?_, Or.inr ?_⟩
      · show countRemove [Ev.createOk id] ≤ 1
        simp [countRemove, List.countP_cons, isRemoveEv]
      · intro k hk
        exact absurd hk (by simp)
      · intro e3 he3 hr
        rw [List.mem_singleton.mp he3] at hr
        simp [isRemoveEv] at hr
      · intro id2 hid2
        have h5 : Ev.createOk id2 = Ev.createOk id := List.mem_singleton.mp hid2
        injection h5 with h5
        show ({ c with container_id := id }).container_id = id2
        rw [h5]
      · show countCreateOk [Ev.createOk id] ≤ 1
        simp [countCreateOk, List.countP_cons, isCreateOkEv]
      · show Ev.createOk ({ c with container_id := id }).container_id ∈
            [Ev.createOk id]
        simp
  · rename_i u tr1 c1 heq
    obtain ⟨id, hcid, rfl, rfl⟩ := setup_phase_ok w args c u tr1 c1 heq
    split
    · rename_i e2 tr2 c2p heq2
      have hall2 : All stepEv tr2 := by
        have h := provisioning_phase_all w args { c with container_id := id }
        rw [heq2] at h; exact h
      have hsame2 : CtxSame { c with container_id := id } c2p := by
        have h := provisioning_phase_same w args { c with container_id := id }
        rw [heq2] at h; exact h
      have hcid2 : c2p.container_id = id := hsame2.2
      have htr2r : countRemove tr2 = 0 :=
        countRemove_zero_of _ (step_no_remove _ hall2)
      have htr2c : countCreateOk tr2 = 0 :=
        countCreateOk_zero_of _ (step_no_createOk _ hall2)
      refine ⟨hsame2.1, ?_, ?_, ?_, ?_, ?_, Or.inr ?_⟩
      · show countRemove ([Ev.createOk id] ++ tr2) ≤ 1
        rw [countRemove_append, htr2r]
        simp [countRemove, List.countP_cons, isRemoveEv]
      · intro k hk
        exact absurd hk (by simp)
      · intro e3 he3 hr
        rcases List.mem_append.mp he3 with h4 | h4
        · rw [List.mem_singleton.mp h4] at hr
          simp [isRemoveEv] at hr
        · have h6 := step_no_remove _ hall2 _ h4
          exact absurd hr (by simp [h6])
      · intro id2 hid2
        rcases List.mem_append.mp hid2 with h4 | h4
        · have h5 : Ev.createOk id2 = Ev.createOk id := List.mem_singleton.mp h4
          injection h5 with h5
          show c2p.container_id = id2
          rw [hcid2, h5]
        · exact absurd h4 (not_mem_createOk_of_step _ hall2 id2)
      · show countCreateOk ([Ev.createOk id] ++ tr2) ≤ 1
        rw [countCreateOk_append, htr2c]
        simp [countCreateOk, List.countP_cons, isCreateOkEv]
      · show Ev.createOk c2p.container_id ∈ [Ev.createOk id] ++ tr2
        rw [hcid2]
        exact List.mem_append_left _ (List.mem_singleton_self _)
    · rename_i u2 tr2 c2p heq2
      have hall2 : All stepEv tr2 := by
        have h := provisioning_phase_all w args { c with container_id := id }
        rw [heq2] at h; exact h
      have hsame2 : CtxSame { c with container_id := id } c2p := by
        have h := provisioning_phase_same w args { c with container_id := id }
        rw [heq2] at h; exact h
      rcases hp : primary_phase w args c2p with ⟨r3, tr3, c3⟩
      have hall3 : All (primaryEv c2p.container_id) tr3 := by
        have h := primary_phase_all w args c2p; rw [hp] at h; exact h
      have hsame3 : CtxSame c2p c3 := by
        have h := primary_phase_same w args c2p; rw [hp] at h; exact h
      have hcnt3 := primary_phase_removes w args c2p
      rw [hp] at hcnt3
      have h3le : countRemove tr3 ≤ 1 := hcnt3.1
      have h3eq : ∀ k, r3 = Except.ok k → countRemove tr3 = 1 :=
        fun k hk => hcnt3.2 k hk
      have htr2r : countRemove tr2 = 0 :=
        countRemove_zero_of _ (step_no_remove _ hall2)
      have htr2c : countCreateOk tr2 = 0 :=
        countCreateOk_zero_of _ (step_no_createOk _ hall2)
      have htr3c : countCreateOk tr3 = 0 :=
        countCreateOk_zero_of _ (primary_no_createOk _ _ hall3)
      have h1cnt : countRemove [Ev.createOk id] = 0 := by
        simp [countRemove, List.countP_cons, isRemoveEv]
      have hcid3 : c3.container_id = id := hsame3.2.trans hsame2.2
      refine ⟨hsame3.1.trans hsame2.1, ?_, ?_, ?_, ?_, ?_, Or.inr ?_⟩
      · show countRemove ([Ev.createOk id] ++ tr2 ++ tr3) ≤ 1
        rw [countRemove_append, countRemove_append, htr2r, h1cnt]
        omega
      · intro k hk
        have hk2 : r3 = Except.ok k := hk
        have h31 := h3eq k hk2
        show countRemove ([Ev.createOk id] ++ tr2 ++ tr3) = 1
        rw [countRemove_append, countRemove_append, htr2r, h1cnt, h31]
      · intro e3 he3 hr
        show e3 = Ev.remove c3.container_id
        rcases List.mem_append.mp he3 with h4 | h4
        · rcases List.mem_append.mp h4 with h5 | h5
          · rw [List.mem_singleton.mp h5] at hr
            simp [isRemoveEv] at hr
          · have h6 := step_no_remove _ hall2 _ h5
            exact absurd hr (by simp [h6])
        · have h7 := primary_remove_handle _ _ hall3 _ h4 hr
          rw [h7, hsame3.2]
      · intro id2 hid2
        show c3.container_id = id2
        rcases List.mem_append.mp hid2 with h4 | h4
        · rcases List.mem_append.mp h4 with h5 | h5
          · have h5b : Ev.createOk id2 = Ev.createOk id := List.mem_singleton.mp h5
            injection h5b with h5b
            rw [hcid3, h5b]
          · exact absurd h5 (not_mem_createOk_of_step _ hall2 id2)
        · exact absurd h4 (not_mem_createOk_of_primary _ _ hall3 id2)
      · show countCreateOk ([Ev.createOk id] ++ tr2 ++ tr3) ≤ 1
        rw [countCreateOk_append, countCreateOk_append, htr2c, htr3c]
        simp [countCreateOk, List.countP_cons, isCreateOkEv]
      · show Ev.createOk c3.container_id ∈ [Ev.createOk id] ++ tr2 ++ tr3
        rw [hcid3]
        exact List.mem_append_left _
          (List.mem_append_left _ (List.mem_singleton_self _))

/-! The claims. -/

/-- C10: on the success path the process exit code equals the primary
command's i64 exit code cast to u8 — its Euclidean remainder modulo 256 — so
a guest exit code of 256 yields process exit code 0. -/
theorem c10_success_exit_code_mod_256 (w : World) (args : Args) (code : Int)
    (h : (perform_all_enter w args (mainCtx w)).1 = .ok code) :
    (mainRun w args false).1 = (code % 256).toNat ∧ u8Cast 256 = 0 := by
  refine ⟨?_, by decide⟩
  rcases hp : perform_all_enter w args (mainCtx w) with ⟨r, tr, c2⟩
  rw [hp] at h
  have hr : r = .ok code := h
  subst hr
  simp [mainRun, hp, u8Cast]

/-- Witness for C10: with every engine call succeeding and the guest
reporting exit code 256, the process exits 0. -/
theorem c10_witness :
    (mainRun w256 argsDefault false).1 = ((256 : Int) % 256).toNat ∧
    u8Cast 256 = 0 :=
  c10_success_exit_code_mod_256 w256 argsDefault 256 rfl

/-- C2 counterexample: a session that fails (image pull error, after a
successful connect) yields process exit code 0, not a fixed non-zero
sentinel, refuting the claim's failure clause. -/
theorem c2_counterexample :
    (perform_all_enter wPullFail argsDefault (mainCtx wPullFail)).1 =
      .error .ImageCreate ∧
    (mainRun wPullFail argsDefault false).1 = 0 :=
  ⟨rfl, rfl⟩

/-- C2 amended: the process exit code is 0 on the cancellation path, the
primary command's exit code truncated to u8 on the success path, and 0 —
not a non-zero sentinel — on the session-failure path. -/
theorem c2_exit_code_amended (w : World) (args : Args) :
    (mainRun w args true).1 = 0 ∧
    (∀ code, (perform_all_enter w args (mainCtx w)).1 = .ok code →
        (mainRun w args false).1 = u8Cast code) ∧
    (∀ e, (perform_all_enter w args (mainCtx w)).1 = .error e →
        (mainRun w args false).1 = 0) := by
  refine ⟨?_, ?_, ?_⟩
  · rcases hd : delete_container w (mainCtx w) with ⟨r, tr, c2⟩
    cases r <;> simp [mainRun, hd]
  · intro code h
    rcases hp : perform_all_enter w args (mainCtx w) with ⟨r, tr, c2⟩
    rw [hp] at h
    have hr : r = .ok code := h
    subst hr
    simp [mainRun, hp]
  · intro e h
    rcases hp : perform_all_enter w args (mainCtx w) with ⟨r, tr, c2⟩
    rw [hp] at h
    have hr : r = .error e := h
    subst hr
    rcases hd : delete_container w c2 with ⟨r2, tr2, c2b⟩
    cases r2 <;> simp [mainRun, hp, hd]

/-- Witness for C2 at a succeeding and at a failing concrete world. -/
theorem c2_witness :
    (mainRun wBase argsDefault false).1 = u8Cast 0 ∧
    (mainRun wPullFail argsDefault false).1 = 0 :=
  ⟨(c2_exit_code_amended wBase argsDefault).2.1 0 rfl,
   (c2_exit_code_amended wPullFail argsDefault).2.2 .ImageCreate rfl⟩

/-- The context the session holds when the primary exec starts in the
`wBase`-family worlds: connected, container `"cid"` created, one exec
already created. -/
def cPrimary : Ctx :=
  { connected := true, container_id := "cid", nextExec := 1, deleteCalls := 0 }

/-- C3 counterexample: with every call succeeding except container removal,
the primary command completes with exit code 7 — an outcome was produced —
yet the session's result becomes the cleanup error (the outcome is replaced,
not preserved) and the process exits 0 instead of 7. -/
theorem c3_counterexample :
    (start_exec_attached wDelFail cPrimary 0).1 = .ok (7, none) ∧
    (perform_all_enter wDelFail argsDefault (mainCtx wDelFail)).1 =
      .error .ContainerDelete ∧
    (mainRun wDelFail argsDefault false).1 = 0 :=
  ⟨rfl, rfl, rfl⟩

/-- C3 amended: on the failure path the original session error is still
reported even when the later cleanup attempt also fails (the cleanup error
is reported separately); but on the success path a cleanup failure replaces
the primary command's exit code — the session returns `ContainerDelete`
instead of the code, which survives only when cleanup succeeds. -/
theorem c3_cleanup_reporting_amended (w : World) (args : Args) (c : Ctx)
    (execId : Nat) :
    (∀ e tr c2, perform_all_enter w args (mainCtx w) = (.error e, tr, c2) →
        Ev.reportError e ∈ (mainRun w args false).2) ∧
    (∀ code out tr, start_exec_attached w c execId = (.ok (code, out), tr) →
        w.delete_ok c.deleteCalls = false →
        (finish_session w c execId).1 = .error .ContainerDelete) ∧
    (∀ code out tr, start_exec_attached w c execId = (.ok (code, out), tr) →
        w.delete_ok c.deleteCalls = true →
        (finish_session w c execId).1 = .ok code) := by
  refine ⟨?_, ?_, ?_⟩
  · intro e tr c2 h
    rcases hd : delete_container w c2 with ⟨r2, tr2, c2b⟩
    by_cases hcon : w.connect_ok <;>
      cases r2 <;> simp [mainRun, h, hd, hcon]
  · intro code out tr h hdel
    have hc : c.connected = true := by
      by_contra hcf
      rw [start_exec_attached] at h
      simp [hcf] at h
    have hd : delete_container w c =
        (.error .ContainerDelete, [Ev.remove c.container_id],
          { c with deleteCalls := c.deleteCalls + 1 }) := by
      rw [delete_container]; simp [hc, hdel]
    simp [finish_session, h, hd]
  · intro code out tr h hdel
    have hc : c.connected = true := by
      by_contra hcf
      rw [start_exec_attached] at h
      simp [hcf] at h
    have hd : delete_container w c =
        (.ok (), [Ev.remove c.container_id],
          { c with deleteCalls := c.deleteCalls + 1 }) := by
      rw [delete_container]; simp [hc, hdel]
    simp [finish_session, h, hd]

/-- Witness for C3: the failure-path report and both cleanup outcomes at
concrete worlds. -/
theorem c3_witness :
    Ev.reportError Error.ContainerDelete ∈ (mainRun wDelFail argsDefault false).2 ∧
    (finish_session wDelFail cPrimary 0).1 = .error .ContainerDelete ∧
    (finish_session wBase cPrimary 0).1 = .ok 0 :=
  ⟨(c3_cleanup_reporting_amended wDelFail argsDefault cPrimary 0).1
      .ContainerDelete _ _ rfl,
   (c3_cleanup_reporting_amended wDelFail argsDefault cPrimary 0).2.1
      7 none _ rfl rfl,
   (c3_cleanup_reporting_amended wBase argsDefault cPrimary 0).2.2
      0 none _ rfl rfl⟩

/-- C9: in every attached exec session, any write of an output chunk to
local stdout is preceded in the call trace by the resize call; and whenever
the exit-code inspection happens, the trace is exactly the exec start, the
one-shot resize, one write per chunk of the fully drained output stream, and
then the inspection — so the resize happens before the first output chunk is
consumed and inspection only after the stream has drained. -/
theorem c9_resize_before_writes_inspect_after (w : World) (c : Ctx) (i : Nat) :
    (∀ l1 ch l2, (start_exec_attached w c i).2 = l1 ++ Ev.write ch :: l2 →
        Ev.resize i ∈ l1) ∧
    (Ev.inspect i ∈ (start_exec_attached w c i).2 →
        (start_exec_attached w c i).2 =
          Ev.execStart i true :: Ev.resize i ::
            ((drainOk (w.exec i).chunks).map Ev.write ++ [Ev.inspect i])) := by
  rcases start_exec_attached_trace_shape w c i with h | h | h | h <;> rw [h]
  · constructor
    · intro l1 ch l2 heq
      have hm : Ev.write ch ∈ ([] : List Ev) := by
        rw [heq]; exact List.mem_append_right _ (List.mem_cons_self _ _)
      simp at hm
    · intro hmem; simp at hmem
  · constructor
    · intro l1 ch l2 heq
      have hm : Ev.write ch ∈ [Ev.execStart i true] := by
        rw [heq]; exact List.mem_append_right _ (List.mem_cons_self _ _)
      simp at hm
    · intro hmem; simp at hmem
  · constructor
    · intro l1 ch l2 heq
      have hm : Ev.write ch ∈ [Ev.execStart i true, Ev.resize i] := by
        rw [heq]; exact List.mem_append_right _ (List.mem_cons_self _ _)
      simp at hm
    · intro hmem; simp at hmem
  · constructor
    · intro l1 ch l2 heq
      rcases l1 with _ | ⟨a, l1t⟩
      · simp at heq
      · rw [List.cons_append] at heq
        injection heq with h1 h2
        rcases l1t with _ | ⟨b, l1t2⟩
        · simp at h2
        · rw [List.cons_append] at h2
          injection h2 with hb h3
          refine List.mem_cons_of_mem a ?_
          rw [hb]
          exact List.mem_cons_self _ _
    · intro hmem; rfl

/-- Witness for C9 at a concrete session with one output chunk. -/
theorem c9_witness :
    (start_exec_attached wChunk cConn 0).2 =
      Ev.execStart 0 true :: Ev.resize 0 ::
        ((drainOk (wChunk.exec 0).chunks).map Ev.write ++ [Ev.inspect 0]) :=
  (c9_resize_before_writes_inspect_after wChunk cConn 0).2 (by decide)

/-- The search probe and the install command of a package are never the same
command string: their fixed parts differ in length. -/
theorem searchCmd_ne_installCmd (pkg : String) : searchCmd pkg ≠ installCmd pkg := by
  intro h
  have h2 := congrArg String.length h
  rw [searchCmd, installCmd, String.length_append, String.length_append,
    String.length_append] at h2
  have e1 : ("/bin/pacman -Ssq \"^" : String).length = 19 := rfl
  have e2 : ("$\"" : String).length = 2 := rfl
  have e3 : ("/bin/sudo /bin/pacman -S --needed --noconfirm " : String).length = 46 := rfl
  rw [e1, e2, e3] at h2
  omega

/-- C8: when a requested package's search probe exits non-zero, the batch
install loop fails with the `PackageDNE` kind naming that package before any
install exec for the package is created, and `PackageDNE` is a different
failure kind from the `PackageInstall` kind of a failing install. -/
theorem c8_search_fail_dne_before_install (w : World) (c : Ctx) (pkg : String)
    (rest : List String)
    (hconn : c.connected = true)
    (hcr : (w.exec c.nextExec).create_ok = true)
    (hst : (w.exec c.nextExec).start_ok = true)
    (hsh : (w.exec c.nextExec).attached_shape = true)
    (hin : (w.exec c.nextExec).inspect_ok = true)
    (hnz : (w.exec c.nextExec).exit_code.getD 0 ≠ 0) :
    (install_packages w c (pkg :: rest)).1 = .error (.PackageDNE pkg) ∧
    (∀ u a n, Ev.execCreate (wrapCmd (installCmd pkg)) u a n ∉
        (install_packages w c (pkg :: rest)).2.1) ∧
    (∀ s k m, Error.PackageDNE s ≠ Error.PackageInstall k m) := by
  have hce : create_exec w c (searchCmd pkg) false =
      (.ok c.nextExec,
        [Ev.execCreate (wrapCmd (searchCmd pkg)) "tempsystem" false c.nextExec],
        { c with nextExec := c.nextExec + 1 }) := by
    rw [create_exec]; simp [hconn, hcr]
  have hsd : start_exec_detached w { c with nextExec := c.nextExec + 1 } c.nextExec =
      (.ok ((w.exec c.nextExec).exit_code.getD 0,
          some (String.join (drainOk (w.exec c.nextExec).chunks))),
        [Ev.execStart c.nextExec false, Ev.inspect c.nextExec]) := by
    rw [start_exec_detached]; simp [hconn, hst, hsh, hin]
  have hrs : run_step w c (searchCmd pkg) (fun _ _ => Error.PackageDNE pkg) =
      (.error (.PackageDNE pkg),
        [Ev.execCreate (wrapCmd (searchCmd pkg)) "tempsystem" false c.nextExec,
          Ev.execStart c.nextExec false, Ev.inspect c.nextExec],
        { c with nextExec := c.nextExec + 1 }) := by
    rw [run_step, hce]
    dsimp only
    rw [hsd]
    simp [hnz]
  have hip : install_packages w c (pkg :: rest) =
      (.error (.PackageDNE pkg),
        [Ev.execCreate (wrapCmd (searchCmd pkg)) "tempsystem" false c.nextExec,
          Ev.execStart c.nextExec false, Ev.inspect c.nextExec],
        { c with nextExec := c.nextExec + 1 }) := by
    rw [install_packages, hrs]
  refine ⟨by rw [hip], ?_, ?_⟩
  · intro u a n hmem
    rw [hip] at hmem
    simp [wrapCmd] at hmem
    exact searchCmd_ne_installCmd pkg hmem.1.symm
  · intro s k m h
    exact Error.noConfusion h

/-- Witness for C8: package `"foo"` whose search probe exits 1. -/
theorem c8_witness :
    (install_packages wStep1Fail cConn ["foo"]).1 = .error (.PackageDNE "foo") ∧
    Ev.execCreate (wrapCmd (installCmd "foo")) "tempsystem" false 0 ∉
      (install_packages wStep1Fail cConn ["foo"]).2.1 :=
  ⟨(c8_search_fail_dne_before_install wStep1Fail cConn "foo" []
      rfl rfl rfl rfl rfl (by decide)).1,
   (c8_search_fail_dne_before_install wStep1Fail cConn "foo" []
      rfl rfl rfl rfl rfl (by decide)).2.1 "tempsystem" false 0⟩

/-! Remaining helpers for the exec-user, provisioning-abort and
cleanup-accounting claims. -/

theorem isWrapped_spec (cmd : List String) (h : isWrapped cmd = true) :
    ∃ s, cmd = wrapCmd s := by
  rcases cmd with _ | ⟨a, _ | ⟨b, _ | ⟨x, _ | ⟨y, t⟩⟩⟩⟩ <;> simp [isWrapped] at h
  exact ⟨x, by rw [wrapCmd, h.1, h.2]⟩

/-- Every exec creation recorded in the trace is wrapped as
`/usr/bin/zsh -c <command>` and runs as user `"tempsystem"`. -/
def createsWF (tr : List Ev) : Prop :=
  ∀ cmd u a n, Ev.execCreate cmd u a n ∈ tr →
    u = "tempsystem" ∧ ∃ s, cmd = wrapCmd s

theorem createsWF_of_step (tr : List Ev) (h : All stepEv tr) : createsWF tr := by
  intro cmd u a n hm
  have h2 := h _ hm
  simp [stepEv] at h2
  exact ⟨h2.1.2, isWrapped_spec cmd h2.1.1⟩

theorem createsWF_of_primary (cid : String) (tr : List Ev)
    (h : All (primaryEv cid) tr) : createsWF tr := by
  intro cmd u a n hm
  have h2 := h _ hm
  simp [primaryEv] at h2
  exact ⟨h2.2, isWrapped_spec cmd h2.1⟩

theorem delete_container_no_create (w : World) (c : Ctx) :
    ∀ cmd u a n, Ev.execCreate cmd u a n ∉ (delete_container w c).2.1 := by
  rcases delete_container_trace w c with h | h <;> rw [h] <;>
    intro cmd u a n hm <;> simp at hm

theorem perform_createsWF (w : World) (args : Args) (c : Ctx) :
    createsWF (perform_all_enter w args c).2.1 := by
  rw [perform_all_enter]
  split
  · rename_i e tr1 c1 heq
    rcases setup_phase_cases w args c with ⟨e2, hs⟩ | ⟨e2, hs⟩ | ⟨id, r, hcid, hs⟩ <;>
      rw [hs] at heq <;>
      (injection heq with hq1 hq2; injection hq2 with hq2 hq3) <;> subst hq2 <;>
      intro cmd u a n hm <;> simp at hm
  · rename_i u tr1 c1 heq
    obtain ⟨id, hcid, rfl, rfl⟩ := setup_phase_ok w args c u tr1 c1 heq
    split
    · rename_i e2 tr2 c2p heq2
      have hall2 : All stepEv tr2 := by
        have h := provisioning_phase_all w args { c with container_id := id }
        rw [heq2] at h; exact h
      intro cmd u2 a n hm
      rcases List.mem_append.mp hm with h4 | h4
      · simp at h4
      · exact createsWF_of_step tr2 hall2 cmd u2 a n h4
    · rename_i u2 tr2 c2p heq2
      have hall2 : All stepEv tr2 := by
        have h := provisioning_phase_all w args { c with container_id := id }
        rw [heq2] at h; exact h
      rcases hpp : primary_phase w args c2p with ⟨r3, tr3, c3⟩
      have hall3 : All (primaryEv c2p.container_id) tr3 := by
        have h := primary_phase_all w args c2p; rw [hpp] at h; exact h
      intro cmd u3 a n hm
      rcases List.mem_append.mp hm with h4 | h4
      · rcases List.mem_append.mp h4 with h5 | h5
        · simp at h5
        · exact createsWF_of_step tr2 hall2 cmd u3 a n h5
      · exact createsWF_of_primary _ tr3 hall3 cmd u3 a n h4

/-- C4 counterexample: with `--update-system`, the provisioning system-update
exec is created with user `"tempsystem"` — the same unprivileged in-container
user as every other exec, the primary one included — refuting the clause
that provisioning-step execs are created to run as the privileged user
(privilege comes from the `sudo` inside the command string instead). -/
theorem c4_counterexample :
    Ev.execCreate (wrapCmd updateSystemCmd) "tempsystem" false 0 ∈
      (mainRun wBase argsUpdate false).2 ∧
    (∀ cmd u a n, Ev.execCreate cmd u a n ∈ (mainRun wBase argsUpdate false).2 →
        u = "tempsystem") ∧
    updateSystemCmd = "/bin/sudo /bin/pacman -Syu --noconfirm" := by
  have htr : (mainRun wBase argsUpdate false).2 =
      [Ev.createOk "cid",
       Ev.execCreate (wrapCmd updateSystemCmd) "tempsystem" false 0,
       Ev.execStart 0 false, Ev.inspect 0,
       Ev.execCreate (wrapCmd "SHOW_WELCOME=true /usr/bin/zsh") "tempsystem" true 1,
       Ev.execStart 1 true, Ev.resize 1, Ev.inspect 1,
       Ev.remove "cid"] := rfl
  refine ⟨?_, ?_, rfl⟩
  · rw [htr]; simp
  · intro cmd u a n hm
    rw [htr] at hm
    simp at hm
    rcases hm with ⟨h1, h2, h3, h4⟩ | ⟨h1, h2, h3, h4⟩ <;> exact h2

/-- C4 amended: every exec — provisioning steps included — is created with
its command wrapped as `/usr/bin/zsh -c "<command>"` and with the
unprivileged in-container user `"tempsystem"`; provisioning steps obtain
privilege through `sudo` inside the command string (as the system-update
command shows), not through the exec's user. -/
theorem c4_exec_wrapping_user_amended (w : World) (args : Args)
    (cancelled : Bool) :
    (∀ cmd u a n, Ev.execCreate cmd u a n ∈ (mainRun w args cancelled).2 →
        u = "tempsystem" ∧ ∃ s, cmd = wrapCmd s) ∧
    updateSystemCmd.data.take 10 = ("/bin/sudo " : String).data := by
  refine ⟨?_, by decide⟩
  intro cmd u a n hm
  cases cancelled with
  | true =>
    rcases hd : delete_container w (mainCtx w) with ⟨r, tr, c2⟩
    have hnm := delete_container_no_create w (mainCtx w)
    rw [hd] at hnm
    by_cases hcon : w.connect_ok <;> cases r <;>
      simp [mainRun, hd, hcon] at hm <;>
      exact absurd hm (hnm cmd u a n)
  | false =>
    rcases hp : perform_all_enter w args (mainCtx w) with ⟨r, tr, c2⟩
    have hwf := perform_createsWF w args (mainCtx w)
    rw [hp] at hwf
    cases r with
    | ok code =>
      by_cases hcon : w.connect_ok <;> simp [mainRun, hp, hcon] at hm <;>
        exact hwf cmd u a n hm
    | error e =>
      rcases hd : delete_container w c2 with ⟨r2, tr2, c2b⟩
      have hnm := delete_container_no_create w c2
      rw [hd] at hnm
      cases r2 <;> by_cases hcon : w.connect_ok <;>
        simp [mainRun, hp, hd, hcon] at hm <;>
        (rcases hm with hm | hm;
         · exact hwf cmd u a n hm
         · exact absurd hm (hnm cmd u a n))

/-- Witness for C4 amended, at the concrete `--update-system` run. -/
theorem c4_witness :
    "tempsystem" = "tempsystem" ∧
    (∃ s, wrapCmd updateSystemCmd = wrapCmd s) :=
  (c4_exec_wrapping_user_amended wBase argsUpdate false).1
    (wrapCmd updateSystemCmd) "tempsystem" false 0 (by decide)

theorem step_not_attached (tr : List Ev) (h : All stepEv tr) :
    (∀ cmd u n, Ev.execCreate cmd u true n ∉ tr) ∧
    (∀ n, Ev.execStart n true ∉ tr) ∧ Ev.upload ∉ tr := by
  refine ⟨?_, ?_, ?_⟩
  · intro cmd u n hm
    have h2 := h _ hm
    simp [stepEv] at h2
  · intro n hm
    have h2 := h _ hm
    simp [stepEv] at h2
  · intro hm
    have h2 := h _ hm
    simp [stepEv] at h2

theorem delete_container_trace_connected (w : World) (c : Ctx)
    (hc : c.connected = true) :
    (delete_container w c).2.1 = [Ev.remove c.container_id] := by
  rw [delete_container]
  by_cases h2 : w.delete_ok c.deleteCalls <;> simp [hc, h2]

/-- The failing exit status carried by a provisioning error, when the error
embeds one (`PackageDNE` carries only the missing package's name). -/
def errStatus : Error → Option Int
  | .PackageInstall st _ => some st
  | .SystemUpdate st _ => some st
  | .ChaoticAUR st _ => some st
  | .Landware st => some st
  | .Pkgfile st => some st
  | _ => none

/-- The provisioning error `e` was produced by exec `n`: an error that
carries an exit status reports exec `n`'s exit code, which is non-zero; a
`PackageDNE p` error's exec `n` is that package's search probe (pacman or
yay), again with a non-zero exit code. -/
def ErrTie (w : World) (e : Error) (n : Nat) (tr : List Ev) : Prop :=
  (∀ st, errStatus e = some st →
      st = (w.exec n).exit_code.getD 0 ∧ st ≠ 0) ∧
  (∀ p, e = Error.PackageDNE p →
      ((∃ u a, Ev.execCreate (wrapCmd (searchCmd p)) u a n ∈ tr) ∨
       (∃ u a, Ev.execCreate (wrapCmd (aurSearchCmd p)) u a n ∈ tr)) ∧
      (w.exec n).exit_code.getD 0 ≠ 0)

theorem ErrTie_append_left (w : World) (e : Error) (n : Nat)
    (l tr : List Ev) (h : ErrTie w e n tr) : ErrTie w e n (l ++ tr) := by
  refine ⟨h.1, ?_⟩
  intro p hp
  obtain ⟨hmem, hst⟩ := h.2 p hp
  refine ⟨?_, hst⟩
  rcases hmem with ⟨u, a, hm⟩ | ⟨u, a, hm⟩
  · exact Or.inl ⟨u, a, List.mem_append_right l hm⟩
  · exact Or.inr ⟨u, a, List.mem_append_right l hm⟩

/-- Every exec-create event of the trace has an exec id below `b`. -/
def IdsBelow (b : Nat) (tr : List Ev) : Prop :=
  ∀ cmd u a m, Ev.execCreate cmd u a m ∈ tr → m < b

theorem IdsBelow_nil (b : Nat) : IdsBelow b [] := by
  intro cmd u a m hm
  simp at hm

theorem IdsBelow_mono (b b2 : Nat) (tr : List Ev) (hb : b ≤ b2)
    (h : IdsBelow b tr) : IdsBelow b2 tr := by
  intro cmd u a m hm
  exact lt_of_lt_of_le (h cmd u a m hm) hb

theorem IdsBelow_append (b : Nat) (l1 l2 : List Ev)
    (h1 : IdsBelow b l1) (h2 : IdsBelow b l2) : IdsBelow b (l1 ++ l2) := by
  intro cmd u a m hm
  rcases List.mem_append.mp hm with h | h
  · exact h1 cmd u a m h
  · exact h2 cmd u a m h

theorem IdsBelow_of_no_create (b : Nat) (tr : List Ev)
    (h : ∀ cmd u a m, Ev.execCreate cmd u a m ∉ tr) : IdsBelow b tr := by
  intro cmd u a m hm
  exact absurd hm (h cmd u a m)

theorem getLast_append_right (l1 l2 : List Ev) (x : Ev)
    (h : l2.getLast? = some x) : (l1 ++ l2).getLast? = some x := by
  induction l1 with
  | nil => exact h
  | cons a t ih =>
    have h2 : t ++ l2 ≠ [] := by
      intro hn
      rcases List.append_eq_nil.mp hn with ⟨h3, h4⟩
      rw [h4] at h
      simp at h
    rcases List.exists_cons_of_ne_nil h2 with ⟨b, l3, hb⟩
    rw [List.cons_append, hb, List.getLast?_cons_cons, ← hb]
    exact ih

theorem start_exec_detached_no_create (w : World) (c : Ctx) (i : Nat) :
    ∀ cmd u a m, Ev.execCreate cmd u a m ∉ (start_exec_detached w c i).2 := by
  intro cmd u a m hm
  rcases start_exec_detached_trace w c i with h | h | h <;> rw [h] at hm <;>
    simp at hm

theorem create_exec_ids (w : World) (c : Ctx) (cmd : String) (a : Bool) :
    c.nextExec ≤ (create_exec w c cmd a).2.2.nextExec ∧
    IdsBelow (create_exec w c cmd a).2.2.nextExec (create_exec w c cmd a).2.1 := by
  by_cases h1 : c.connected
  · by_cases h2 : (w.exec c.nextExec).create_ok
    · refine ⟨?_, ?_⟩
      · simp [create_exec, h1, h2]
      · intro cmd2 u2 a2 m hm
        simp [create_exec, h1, h2] at hm ⊢
        omega
    · refine ⟨?_, ?_⟩
      · simp [create_exec, h1, h2]
      · intro cmd2 u2 a2 m hm
        simp [create_exec, h1, h2] at hm ⊢
        omega
  · refine ⟨?_, ?_⟩
    · simp [create_exec, h1]
    · intro cmd2 u2 a2 m hm
      simp [create_exec, h1] at hm

theorem run_step_ids (w : World) (c : Ctx) (cmd : String)
    (f : Int → String → Error) :
    c.nextExec ≤ (run_step w c cmd f).2.2.nextExec ∧
    IdsBelow (run_step w c cmd f).2.2.nextExec (run_step w c cmd f).2.1 := by
  rw [run_step]
  rcases hce : create_exec w c cmd false with ⟨r1, tr1, c1⟩
  have h1 := create_exec_ids w c cmd false
  rw [hce] at h1
  cases r1 with
  | error e => exact h1
  | ok n =>
    dsimp only
    rcases hsd : start_exec_detached w c1 n with ⟨r2, tr2⟩
    have h2 : ∀ cmd2 u a m, Ev.execCreate cmd2 u a m ∉ tr2 := by
      have h3 := start_exec_detached_no_create w c1 n
      rw [hsd] at h3
      exact h3
    cases r2 with
    | error e =>
      exact ⟨h1.1, IdsBelow_append _ _ _ h1.2 (IdsBelow_of_no_create _ _ h2)⟩
    | ok p =>
      rcases p with ⟨status, output⟩
      dsimp only
      by_cases hz : status ≠ 0
      · rw [if_pos hz]
        exact ⟨h1.1, IdsBelow_append _ _ _ h1.2 (IdsBelow_of_no_create _ _ h2)⟩
      · rw [if_neg hz]
        exact ⟨h1.1, IdsBelow_append _ _ _ h1.2 (IdsBelow_of_no_create _ _ h2)⟩

theorem install_packages_ids (w : World) (pkgs : List String) : ∀ c,
    c.nextExec ≤ (install_packages w c pkgs).2.2.nextExec ∧
    IdsBelow (install_packages w c pkgs).2.2.nextExec
      (install_packages w c pkgs).2.1 := by
  induction pkgs with
  | nil =>
    intro c
    exact ⟨Nat.le_refl _, IdsBelow_nil _⟩
  | cons pkg rest ih =>
    intro c
    rw [install_packages]
    split
    · rename_i e tr1 c1 heq
      have h := run_step_ids w c (searchCmd pkg) (fun _ _ => Error.PackageDNE pkg)
      rw [heq] at h
      exact h
    · rename_i u tr1 c1 heq
      have h1 := run_step_ids w c (searchCmd pkg) (fun _ _ => Error.PackageDNE pkg)
      rw [heq] at h1
      split
      · rename_i e tr2 c2 heq2
        have h2 := run_step_ids w c1 (installCmd pkg)
          (fun st out => Error.PackageInstall st (get_error_from_pacman out))
        rw [heq2] at h2
        exact ⟨Nat.le_trans h1.1 h2.1,
          IdsBelow_append _ _ _ (IdsBelow_mono _ _ _ h2.1 h1.2) h2.2⟩
      · rename_i u2 tr2 c2 heq2
        have h2 := run_step_ids w c1 (installCmd pkg)
          (fun st out => Error.PackageInstall st (get_error_from_pacman out))
        rw [heq2] at h2
        have h3 := ih c2
        exact ⟨Nat.le_trans h1.1 (Nat.le_trans h2.1 h3.1),
          IdsBelow_append _ _ _
            (IdsBelow_append _ _ _
              (IdsBelow_mono _ _ _ (Nat.le_trans h2.1 h3.1) h1.2)
              (IdsBelow_mono _ _ _ h3.1 h2.2)) h3.2⟩

theorem install_aur_packages_ids (w : World) (pkgs : List String) : ∀ c,
    c.nextExec ≤ (install_aur_packages w c pkgs).2.2.nextExec ∧
    IdsBelow (install_aur_packages w c pkgs).2.2.nextExec
      (install_aur_packages w c pkgs).2.1 := by
  induction pkgs with
  | nil =>
    intro c
    exact ⟨Nat.le_refl _, IdsBelow_nil _⟩
  | cons pkg rest ih =>
    intro c
    rw [install_aur_packages]
    split
    · rename_i e tr1 c1 heq
      have h := run_step_ids w c (aurSearchCmd pkg) (fun _ _ => Error.PackageDNE pkg)
      rw [heq] at h
      exact h
    · rename_i u tr1 c1 heq
      have h1 := run_step_ids w c (aurSearchCmd pkg) (fun _ _ => Error.PackageDNE pkg)
      rw [heq] at h1
      split
      · rename_i e tr2 c2 heq2
        have h2 := run_step_ids w c1 (aurInstallCmd pkg)
          (fun st out => Error.PackageInstall st (get_error_from_pacman out))
        rw [heq2] at h2
        exact ⟨Nat.le_trans h1.1 h2.1,
          IdsBelow_append _ _ _ (IdsBelow_mono _ _ _ h2.1 h1.2) h2.2⟩
      · rename_i u2 tr2 c2 heq2
        have h2 := run_step_ids w c1 (aurInstallCmd pkg)
          (fun st out => Error.PackageInstall st (get_error_from_pacman out))
        rw [heq2] at h2
        have h3 := ih c2
        exact ⟨Nat.le_trans h1.1 (Nat.le_trans h2.1 h3.1),
          IdsBelow_append _ _ _
            (IdsBelow_append _ _ _
              (IdsBelow_mono _ _ _ (Nat.le_trans h2.1 h3.1) h1.2)
              (IdsBelow_mono _ _ _ h3.1 h2.2)) h3.2⟩

theorem andThen_ids (b : Nat) (r : Except Error Unit × List Ev × Ctx)
    (f : Ctx → Except Error Unit × List Ev × Ctx)
    (h1 : b ≤ r.2.2.nextExec ∧ IdsBelow r.2.2.nextExec r.2.1)
    (hf : ∀ c, c.nextExec ≤ (f c).2.2.nextExec ∧
        IdsBelow (f c).2.2.nextExec (f c).2.1) :
    b ≤ (andThen r f).2.2.nextExec ∧
    IdsBelow (andThen r f).2.2.nextExec (andThen r f).2.1 := by
  rcases r with ⟨r0, tr, c⟩
  cases r0 with
  | error e => exact h1
  | ok u =>
    have h3 := hf c
    refine ⟨Nat.le_trans h1.1 h3.1, ?_⟩
    show IdsBelow (f c).2.2.nextExec (tr ++ (f c).2.1)
    exact IdsBelow_append _ _ _ (IdsBelow_mono _ _ _ h3.1 h1.2) h3.2

theorem ifstep_ids (c : Ctx) (b : Bool) (r : Except Error Unit × List Ev × Ctx)
    (hr : c.nextExec ≤ r.2.2.nextExec ∧ IdsBelow r.2.2.nextExec r.2.1) :
    c.nextExec ≤ (if b then r else skip c).2.2.nextExec ∧
    IdsBelow (if b then r else skip c).2.2.nextExec
      (if b then r else skip c).2.1 := by
  cases b
  · exact ⟨Nat.le_refl _, IdsBelow_nil _⟩
  · exact hr

/-- The provisioning phase only creates execs numbered below the exec counter
of the context it returns, and never lowers that counter. -/
theorem provisioning_phase_ids (w : World) (args : Args) (c : Ctx) :
    c.nextExec ≤ (provisioning_phase w args c).2.2.nextExec ∧
    IdsBelow (provisioning_phase w args c).2.2.nextExec
      (provisioning_phase w args c).2.1 := by
  rw [provisioning_phase]
  apply andThen_ids
  · exact ifstep_ids c _ _ (run_step_ids w c chaoticAURCmd _)
  intro c1
  apply andThen_ids
  · exact ifstep_ids c1 _ _ (run_step_ids w c1 landwareCmd _)
  intro c2
  apply andThen_ids
  · exact ifstep_ids c2 _ _ (run_step_ids w c2 updateSystemCmd _)
  intro c3
  apply andThen_ids
  · exact ifstep_ids c3 _ _ (run_step_ids w c3 pkgfileCmd _)
  intro c4
  apply andThen_ids
  · cases hep : args.extra_packages with
    | none => exact ⟨Nat.le_refl _, IdsBelow_nil _⟩
    | some pkgs => exact install_packages_ids w (splitWs pkgs) c4
  intro c5
  cases hea : args.extra_aur_packages with
  | none => exact ⟨Nat.le_refl _, IdsBelow_nil _⟩
  | some pkgs => exact install_aur_packages_ids w (splitWs pkgs) c5

theorem start_exec_detached_err (w : World) (c : Ctx) (i : Nat) (e : Error)
    (h : (start_exec_detached w c i).1 = .error e) : e.isProvisioning = false := by
  rw [start_exec_detached] at h
  by_cases h1 : c.connected
  · by_cases h2 : (w.exec i).start_ok
    · by_cases h3 : (w.exec i).attached_shape
      · by_cases h4 : (w.exec i).inspect_ok
        · simp [h1, h2, h3, h4] at h
        · simp [h1, h2, h3, h4] at h; subst h; rfl
      · simp [h1, h2, h3] at h; subst h; rfl
    · simp [h1, h2] at h; subst h; rfl
  · simp [h1] at h; subst h; rfl

theorem create_exec_ok_spec (w : World) (c : Ctx) (cmd : String) (a : Bool)
    (n : Nat) (tr : List Ev) (c1 : Ctx)
    (h : create_exec w c cmd a = (.ok n, tr, c1)) :
    n = c.nextExec ∧
    tr = [Ev.execCreate (wrapCmd cmd) "tempsystem" a c.nextExec] ∧
    c1.nextExec = c.nextExec + 1 := by
  rw [create_exec] at h
  by_cases h1 : c.connected
  · by_cases h2 : (w.exec c.nextExec).create_ok
    · simp [h1, h2] at h
      obtain ⟨ha, hb, hc⟩ := h
      exact ⟨ha.symm, hb.symm, by rw [← hc]⟩
    · simp [h1, h2] at h
  · simp [h1] at h

theorem start_exec_detached_ok_spec (w : World) (c : Ctx) (i : Nat)
    (st : Int) (out : Option String) (tr : List Ev)
    (h : start_exec_detached w c i = (.ok (st, out), tr)) :
    st = (w.exec i).exit_code.getD 0 ∧
    out = some (String.join (drainOk (w.exec i).chunks)) ∧
    tr = [Ev.execStart i false, Ev.inspect i] := by
  rw [start_exec_detached] at h
  by_cases h1 : c.connected
  · by_cases h2 : (w.exec i).start_ok
    · by_cases h3 : (w.exec i).attached_shape
      · by_cases h4 : (w.exec i).inspect_ok
        · simp [h1, h2, h3, h4] at h
          obtain ⟨⟨ha, hb⟩, hc⟩ := h
          exact ⟨ha.symm, hb.symm, hc.symm⟩
        · simp [h1, h2, h3, h4] at h
      · simp [h1, h2, h3] at h
    · simp [h1, h2] at h
  · simp [h1] at h

/-- A provisioning-kind failure of one batched step happens only on the
non-zero-exit path: the step's trace is exactly its create/start/inspect
triple for the exec it allocated, the returned context points one past that
exec, and the error is the step's constructor applied to that exec's exit
status (which is non-zero) and captured output. -/
theorem run_step_fail_shape (w : World) (c : Ctx) (cmd : String)
    (f : Int → String → Error) (e : Error) (tr : List Ev) (c2 : Ctx)
    (h : run_step w c cmd f = (.error e, tr, c2))
    (he : e.isProvisioning = true) :
    tr = [Ev.execCreate (wrapCmd cmd) "tempsystem" false c.nextExec,
      Ev.execStart c.nextExec false, Ev.inspect c.nextExec] ∧
    c2.nextExec = c.nextExec + 1 ∧
    e = f ((w.exec c.nextExec).exit_code.getD 0)
      (String.join (drainOk (w.exec c.nextExec).chunks)) ∧
    (w.exec c.nextExec).exit_code.getD 0 ≠ 0 := by
  rw [run_step] at h
  split at h
  · rename_i e2 tr1 c1 heq
    injection h with hq1 hq2
    have he2 : e2 = e := by injection hq1
    have hnp := create_exec_err w c cmd false e2 (by rw [heq])
    rw [he2] at hnp
    exact absurd he (by simp [hnp])
  · rename_i n tr1 c1 heq
    obtain ⟨hn, htr1, hc1⟩ := create_exec_ok_spec w c cmd false n tr1 c1 heq
    split at h
    · rename_i e2 tr2 heq2
      injection h with hq1 hq2
      have he2 : e2 = e := by injection hq1
      have hnp := start_exec_detached_err w c1 n e2 (by rw [heq2])
      rw [he2] at hnp
      exact absurd he (by simp [hnp])
    · rename_i status output tr2 heq2
      obtain ⟨hst, hout, htr2⟩ :=
        start_exec_detached_ok_spec w c1 n status output tr2 heq2
      subst hn
      by_cases hz : status ≠ 0
      · rw [if_pos hz] at h
        injection h with hq1 hq2
        injection hq2 with hq2 hq3
        have hfe : f status (output.getD "") = e := by injection hq1
        refine ⟨?_, ?_, ?_, ?_⟩
        · rw [← hq2, htr1, htr2]
          rfl
        · rw [← hq3]
          exact hc1
        · rw [← hfe, hst, hout]
          rfl
        · rw [← hst]
          exact hz
      · rw [if_neg hz] at h
        injection h with hq1 hq2
        exact absurd hq1 (by simp)

/-- A provisioning block "fails last": a provisioning-kind failure leaves a
trace whose final event is the inspection of the exec that produced the
error (`ErrTie`), with the exec counter of the returned context one past
that exec — nothing runs after the first failing step. -/
def FailsLast (w : World) (res : Except Error Unit × List Ev × Ctx) : Prop :=
  ∀ e, res.1 = .error e → e.isProvisioning = true →
    ∃ n, res.2.1.getLast? = some (Ev.inspect n) ∧ res.2.2.nextExec = n + 1 ∧
      ErrTie w e n res.2.1

theorem run_step_fails_last_status (w : World) (c : Ctx) (cmd : String)
    (f : Int → String → Error)
    (hf : ∀ st out, errStatus (f st out) = some st)
    (hfd : ∀ st out p, f st out ≠ Error.PackageDNE p) :
    FailsLast w (run_step w c cmd f) := by
  intro e h he
  rcases hr : run_step w c cmd f with ⟨r0, tr, c2⟩
  rw [hr] at h
  have h0 : r0 = Except.error e := h
  subst h0
  obtain ⟨htr, hnx, hfe, hnz⟩ := run_step_fail_shape w c cmd f e tr c2 hr he
  refine ⟨c.nextExec, ?_, hnx, ?_, ?_⟩
  · rw [htr]
    rfl
  · intro st hst
    rw [hfe, hf] at hst
    have h2 : (w.exec c.nextExec).exit_code.getD 0 = st := by injection hst
    exact ⟨h2.symm, h2 ▸ hnz⟩
  · intro p hp
    rw [hfe] at hp
    exact absurd hp (hfd _ _ p)

theorem run_step_fails_last_dne (w : World) (c : Ctx) (pkg cmd : String)
    (hcmd : cmd = searchCmd pkg ∨ cmd = aurSearchCmd pkg) :
    FailsLast w (run_step w c cmd (fun _ _ => Error.PackageDNE pkg)) := by
  intro e h he
  rcases hr : run_step w c cmd (fun _ _ => Error.PackageDNE pkg) with ⟨r0, tr, c2⟩
  rw [hr] at h
  have h0 : r0 = Except.error e := h
  subst h0
  obtain ⟨htr, hnx, hfe, hnz⟩ :=
    run_step_fail_shape w c cmd (fun _ _ => Error.PackageDNE pkg) e tr c2 hr he
  refine ⟨c.nextExec, ?_, hnx, ?_, ?_⟩
  · rw [htr]
    rfl
  · intro st hst
    rw [hfe] at hst
    simp [errStatus] at hst
  · intro p hp
    rw [hfe] at hp
    have hpk : pkg = p := by injection hp
    subst hpk
    refine ⟨?_, hnz⟩
    rcases hcmd with hc | hc
    · refine Or.inl ⟨"tempsystem", false, ?_⟩
      rw [htr, hc]
      exact List.mem_cons_self _ _
    · refine Or.inr ⟨"tempsystem", false, ?_⟩
      rw [htr, hc]
      exact List.mem_cons_self _ _

theorem skip_fails_last (w : World) (c : Ctx) : FailsLast w (skip c) := by
  intro e h he
  exact absurd h (by simp [skip])

theorem ifstep_fails_last (w : World) (c : Ctx) (b : Bool)
    (r : Except Error Unit × List Ev × Ctx) (hr : FailsLast w r) :
    FailsLast w (if b then r else skip c) := by
  cases b
  · exact skip_fails_last w c
  · exact hr

theorem andThen_fails_last (w : World) (r : Except Error Unit × List Ev × Ctx)
    (f : Ctx → Except Error Unit × List Ev × Ctx)
    (h1 : FailsLast w r) (h2 : ∀ c, FailsLast w (f c)) :
    FailsLast w (andThen r f) := by
  rcases r with ⟨r0, tr, c⟩
  cases r0 with
  | error e0 => exact h1
  | ok u =>
    intro e h he
    have h3 : (f c).1 = .error e := h
    obtain ⟨n, hl, hn, ht⟩ := h2 c e h3 he
    refine ⟨n, ?_, hn, ?_⟩
    · show (tr ++ (f c).2.1).getLast? = some (Ev.inspect n)
      exact getLast_append_right _ _ _ hl
    · show ErrTie w e n (tr ++ (f c).2.1)
      exact ErrTie_append_left w e n tr _ ht

theorem install_packages_fails_last (w : World) (pkgs : List String) :
    ∀ c, FailsLast w (install_packages w c pkgs) := by
  induction pkgs with
  | nil =>
    intro c e h he
    exact absurd h (by simp [install_packages])
  | cons pkg rest ih =>
    intro c
    rw [install_packages]
    rcases h1 : run_step w c (searchCmd pkg) (fun _ _ => Error.PackageDNE pkg)
      with ⟨r1, tr1, c1⟩
    cases r1 with
    | error e1 =>
      have hs := run_step_fails_last_dne w c pkg (searchCmd pkg) (Or.inl rfl)
      rw [h1] at hs
      exact hs
    | ok u1 =>
      dsimp only
      rcases h2 : run_step w c1 (installCmd pkg)
          (fun st out => Error.PackageInstall st (get_error_from_pacman out))
        with ⟨r2, tr2, c2⟩
      cases r2 with
      | error e2 =>
        intro e h he
        have h0 : e2 = e := by
          have h1b : (Except.error e2 : Except Error Unit) = .error e := h
          injection h1b
        subst h0
        have hs := run_step_fails_last_status w c1 (installCmd pkg)
          (fun st out => Error.PackageInstall st (get_error_from_pacman out))
          (fun st out => rfl)
          (fun st out p hx => Error.noConfusion hx)
        rw [h2] at hs
        obtain ⟨n, hl, hn, ht⟩ := hs e2 rfl he
        refine ⟨n, ?_, hn, ?_⟩
        · show (tr1 ++ tr2).getLast? = some (Ev.inspect n)
          exact getLast_append_right _ _ _ hl
        · show ErrTie w e2 n (tr1 ++ tr2)
          exact ErrTie_append_left _ _ _ _ _ ht
      | ok u2 =>
        intro e h he
        have h3 : (install_packages w c2 rest).1 = .error e := h
        obtain ⟨n, hl, hn, ht⟩ := ih c2 e h3 he
        refine ⟨n, ?_, hn, ?_⟩
        · show (tr1 ++ tr2 ++ (install_packages w c2 rest).2.1).getLast? =
            some (Ev.inspect n)
          exact getLast_append_right _ _ _ hl
        · show ErrTie w e n (tr1 ++ tr2 ++ (install_packages w c2 rest).2.1)
          exact ErrTie_append_left _ _ _ _ _ ht

theorem install_aur_packages_fails_last (w : World) (pkgs : List String) :
    ∀ c, FailsLast w (install_aur_packages w c pkgs) := by
  induction pkgs with
  | nil =>
    intro c e h he
    exact absurd h (by simp [install_aur_packages])
  | cons pkg rest ih =>
    intro c
    rw [install_aur_packages]
    rcases h1 : run_step w c (aurSearchCmd pkg) (fun _ _ => Error.PackageDNE pkg)
      with ⟨r1, tr1, c1⟩
    cases r1 with
    | error e1 =>
      have hs := run_step_fails_last_dne w c pkg (aurSearchCmd pkg) (Or.inr rfl)
      rw [h1] at hs
      exact hs
    | ok u1 =>
      dsimp only
      rcases h2 : run_step w c1 (aurInstallCmd pkg)
          (fun st out => Error.PackageInstall st (get_error_from_pacman out))
        with ⟨r2, tr2, c2⟩
      cases r2 with
      | error e2 =>
        intro e h he
        have h0 : e2 = e := by
          have h1b : (Except.error e2 : Except Error Unit) = .error e := h
          injection h1b
        subst h0
        have hs := run_step_fails_last_status w c1 (aurInstallCmd pkg)
          (fun st out => Error.PackageInstall st (get_error_from_pacman out))
          (fun st out => rfl)
          (fun st out p hx => Error.noConfusion hx)
        rw [h2] at hs
        obtain ⟨n, hl, hn, ht⟩ := hs e2 rfl he
        refine ⟨n, ?_, hn, ?_⟩
        · show (tr1 ++ tr2).getLast? = some (Ev.inspect n)
          exact getLast_append_right _ _ _ hl
        · show ErrTie w e2 n (tr1 ++ tr2)
          exact ErrTie_append_left _ _ _ _ _ ht
      | ok u2 =>
        intro e h he
        have h3 : (install_aur_packages w c2 rest).1 = .error e := h
        obtain ⟨n, hl, hn, ht⟩ := ih c2 e h3 he
        refine ⟨n, ?_, hn, ?_⟩
        · show (tr1 ++ tr2 ++ (install_aur_packages w c2 rest).2.1).getLast? =
            some (Ev.inspect n)
          exact getLast_append_right _ _ _ hl
        · show ErrTie w e n (tr1 ++ tr2 ++ (install_aur_packages w c2 rest).2.1)
          exact ErrTie_append_left _ _ _ _ _ ht

/-- The whole provisioning phase fails last: its first provisioning-kind
failure is where the phase's trace ends — every later enabled step is
aborted and contributes nothing. -/
theorem provisioning_phase_fails_last (w : World) (args : Args) (c : Ctx) :
    FailsLast w (provisioning_phase w args c) := by
  rw [provisioning_phase]
  apply andThen_fails_last
  · apply ifstep_fails_last
    exact run_step_fails_last_status w c chaoticAURCmd
      (fun st out => Error.ChaoticAUR st (get_error_from_either out))
      (fun st out => rfl) (fun st out p hx => Error.noConfusion hx)
  intro c1
  apply andThen_fails_last
  · apply ifstep_fails_last
    exact run_step_fails_last_status w c1 landwareCmd
      (fun st _ => Error.Landware st)
      (fun st out => rfl) (fun st out p hx => Error.noConfusion hx)
  intro c2
  apply andThen_fails_last
  · apply ifstep_fails_last
    exact run_step_fails_last_status w c2 updateSystemCmd
      (fun st out => Error.SystemUpdate st (get_error_from_pacman out))
      (fun st out => rfl) (fun st out p hx => Error.noConfusion hx)
  intro c3
  apply andThen_fails_last
  · apply ifstep_fails_last
    exact run_step_fails_last_status w c3 pkgfileCmd
      (fun st _ => Error.Pkgfile st)
      (fun st out => rfl) (fun st out p hx => Error.noConfusion hx)
  intro c4
  apply andThen_fails_last
  · cases hep : args.extra_packages with
    | none => exact skip_fails_last w c4
    | some pkgs => exact install_packages_fails_last w (splitWs pkgs) c4
  intro c5
  cases hea : args.extra_aur_packages with
  | none => exact skip_fails_last w c5
  | some pkgs => exact install_aur_packages_fails_last w (splitWs pkgs) c5

/-- C7: when a session fails with a provisioning-kind error (repository
setup, system update, pkgfile, package search or install), no attached exec
was ever created or started — the primary command never ran — and the
history upload never happened; the first failing step aborts all subsequent
provisioning steps: every exec the session ever created is numbered below
the final exec counter, and the session trace ends at the inspection of the
very exec that produced the failing non-zero exit status (for `PackageDNE`,
the failed search probe of that package) — nothing at all runs after the
first failure; the run then transitions directly to Cleanup: the full
process trace records the remove-container attempt and the process reports
the failure outcome (exit code 0 in this implementation). -/
theorem c7_provisioning_failure_aborts (w : World) (args : Args) (e : Error)
    (tr : List Ev) (c2 : Ctx)
    (hp : perform_all_enter w args (mainCtx w) = (.error e, tr, c2))
    (he : e.isProvisioning = true)
    (hcon : w.connect_ok = true) :
    (∀ cmd u n, Ev.execCreate cmd u true n ∉ tr) ∧
    (∀ n, Ev.execStart n true ∉ tr) ∧
    Ev.upload ∉ tr ∧
    Ev.remove c2.container_id ∈ (mainRun w args false).2 ∧
    (mainRun w args false).1 = 0 ∧
    IdsBelow c2.nextExec tr ∧
    (∃ n, tr.getLast? = some (Ev.inspect n) ∧ c2.nextExec = n + 1 ∧
      ErrTie w e n tr) := by
  have hp0 := hp
  have hconn2 : c2.connected = true := by
    have spec := (perform_spec w args (mainCtx w)).1
    rw [hp0] at spec
    have h2 : c2.connected = (mainCtx w).connected := spec
    rw [h2]; simp [mainCtx, hcon]
  have hrem : Ev.remove c2.container_id ∈ (mainRun w args false).2 ∧
      (mainRun w args false).1 = 0 := by
    rcases hd : delete_container w c2 with ⟨r2, tr2, c2b⟩
    have htr2 : tr2 = [Ev.remove c2.container_id] := by
      have h := delete_container_trace_connected w c2 hconn2
      rw [hd] at h; exact h
    cases r2 <;> simp [mainRun, hp0, hd, hcon, htr2]
  rw [perform_all_enter] at hp
  have habs : (∀ cmd u n, Ev.execCreate cmd u true n ∉ tr) ∧
      (∀ n, Ev.execStart n true ∉ tr) ∧ Ev.upload ∉ tr ∧
      IdsBelow c2.nextExec tr ∧
      (∃ n, tr.getLast? = some (Ev.inspect n) ∧ c2.nextExec = n + 1 ∧
        ErrTie w e n tr) := by
    split at hp
    · rename_i e2 tr1 c1 heq
      injection hp with hq1 hq2
      have he2 : e2 = e := by injection hq1
      have hnp := setup_phase_err w args (mainCtx w) e2 (by rw [heq])
      rw [he2] at hnp
      exact absurd he (by simp [hnp])
    · rename_i u tr1 c1 heq
      obtain ⟨id, hcid, rfl, rfl⟩ := setup_phase_ok w args (mainCtx w) u tr1 c1 heq
      split at hp
      · rename_i e2 tr2 c2p heq2
        injection hp with hq1 hq2
        injection hq2 with hq2 hq3
        subst hq2
        have he2 : e2 = e := by injection hq1
        have hall2 : All stepEv tr2 := by
          have h := provisioning_phase_all w args
            { mainCtx w with container_id := id }
          rw [heq2] at h; exact h
        have hstep := step_not_attached tr2 hall2
        have hids := provisioning_phase_ids w args
          { mainCtx w with container_id := id }
        rw [heq2] at hids
        have hfl := provisioning_phase_fails_last w args
          { mainCtx w with container_id := id }
        rw [heq2] at hfl
        obtain ⟨n, hl, hn, ht⟩ := hfl e (by rw [he2]) he
        refine ⟨?_, ?_, ?_, ?_, n, ?_, ?_, ?_⟩
        · intro cmd u2 n2 hm
          rcases List.mem_append.mp hm with h4 | h4
          · simp at h4
          · exact hstep.1 cmd u2 n2 h4
        · intro n2 hm
          rcases List.mem_append.mp hm with h4 | h4
          · simp at h4
          · exact hstep.2.1 n2 h4
        · intro hm
          rcases List.mem_append.mp hm with h4 | h4
          · simp at h4
          · exact hstep.2.2 h4
        · rw [← hq3]
          apply IdsBelow_append
          · intro cmd2 u2 a2 m hm
            simp at hm
          · exact hids.2
        · exact getLast_append_right _ _ _ hl
        · rw [← hq3]
          exact hn
        · exact ErrTie_append_left _ _ _ _ _ ht
      · rename_i u2 tr2 c2p heq2
        rcases hpp : primary_phase w args c2p with ⟨r3, tr3, c3⟩
        rw [hpp] at hp
        injection hp with hq1 hq2
        have hnp := primary_phase_err w args c2p e (by rw [hpp]; exact hq1)
        exact absurd he (by simp [hnp])
  exact ⟨habs.1, habs.2.1, habs.2.2.1, hrem.1, hrem.2, habs.2.2.2.1,
    habs.2.2.2.2⟩

/-- The default invocation plus `--update-pkgfile`. -/
def argsPkgfile : Args := { argsDefault with update_pkgfile := true }

/-- The session trace of the run whose pkgfile-refresh step fails. -/
def trStep : List Ev :=
  [Ev.createOk "cid",
   Ev.execCreate (wrapCmd pkgfileCmd) "tempsystem" false 0,
   Ev.execStart 0 false, Ev.inspect 0]

/-- Witness for C7: `--update-pkgfile` with the refresh exec exiting 1. -/
theorem c7_witness :
    (∀ n, Ev.execStart n true ∉ trStep) ∧
    Ev.remove "cid" ∈ (mainRun wStep1Fail argsPkgfile false).2 ∧
    IdsBelow cPrimary.nextExec trStep ∧
    (∃ n, trStep.getLast? = some (Ev.inspect n) ∧ cPrimary.nextExec = n + 1 ∧
      ErrTie wStep1Fail (.Pkgfile 1) n trStep) :=
  ⟨(c7_provisioning_failure_aborts wStep1Fail argsPkgfile (.Pkgfile 1)
      trStep cPrimary (by rfl) rfl rfl).2.1,
   (c7_provisioning_failure_aborts wStep1Fail argsPkgfile (.Pkgfile 1)
      trStep cPrimary (by rfl) rfl rfl).2.2.2.1,
   (c7_provisioning_failure_aborts wStep1Fail argsPkgfile (.Pkgfile 1)
      trStep cPrimary (by rfl) rfl rfl).2.2.2.2.2.1,
   (c7_provisioning_failure_aborts wStep1Fail argsPkgfile (.Pkgfile 1)
      trStep cPrimary (by rfl) rfl rfl).2.2.2.2.2.2⟩

/-- C1 counterexample: cancellation right after startup — connect succeeded
but no create-container call was ever made — still performs one
remove-container call, passing the default empty handle of a container that
was never created; this refutes both "zero create successes implies zero
remove calls" and "a never-created handle is never passed to remove". -/
theorem c1_counterexample :
    countCreateOk (mainRun wBase argsDefault true).2 = 0 ∧
    countRemove (mainRun wBase argsDefault true).2 = 1 ∧
    (mainRun wBase argsDefault true).2 = [Ev.remove ""] :=
  ⟨rfl, rfl, rfl⟩

/-- C1 amended: with the engine connection established, every exit path —
success, failure and cancellation — attempts at least one remove-container
call and at most two (a second only after the in-session cleanup call
failed); at most one create-container succeeds per session; a successfully
created handle is always passed to some remove call; and every remove call
passes the currently recorded handle, which is the created container id when
a create succeeded and the default empty handle otherwise — so remove is
called even when nothing was created. -/
theorem c1_remove_accounting_amended (w : World) (args : Args)
    (cancelled : Bool) (hcon : w.connect_ok = true) :
    1 ≤ countRemove (mainRun w args cancelled).2 ∧
    countRemove (mainRun w args cancelled).2 ≤ 2 ∧
    countCreateOk (mainRun w args cancelled).2 ≤ 1 ∧
    (∀ id, Ev.createOk id ∈ (mainRun w args cancelled).2 →
        Ev.remove id ∈ (mainRun w args cancelled).2) ∧
    (∀ s, Ev.remove s ∈ (mainRun w args cancelled).2 →
        s = "" ∨ Ev.createOk s ∈ (mainRun w args cancelled).2) := by
  have hmcc : (mainCtx w).connected = true := by simp [mainCtx, hcon]
  have hmci : (mainCtx w).container_id = "" := by simp [mainCtx, hcon, Ctx.init]
  cases cancelled with
  | true =>
    rcases hd : delete_container w (mainCtx w) with ⟨r, tr, c2⟩
    have htr : tr = [Ev.remove ""] := by
      have h := delete_container_trace_connected w (mainCtx w) hmcc
      rw [hd, hmci] at h
      exact h
    subst htr
    cases r with
    | error e =>
      have hmr : mainRun w args true = (0, [Ev.remove "", Ev.reportError e]) := by
        simp [mainRun, hd, hcon]
      rw [hmr]
      refine ⟨?_, ?_, ?_, ?_, ?_⟩
      · show 1 ≤ countRemove [Ev.remove "", Ev.reportError e]
        simp [countRemove, List.countP_cons, isRemoveEv]
      · show countRemove [Ev.remove "", Ev.reportError e] ≤ 2
        simp [countRemove, List.countP_cons, isRemoveEv]
      · show countCreateOk [Ev.remove "", Ev.reportError e] ≤ 1
        simp [countCreateOk, List.countP_cons, isCreateOkEv]
      · intro id hid
        simp at hid
      · intro s hs
        simp at hs
        exact Or.inl hs
    | ok u =>
      have hmr : mainRun w args true = (0, [Ev.remove ""]) := by
        simp [mainRun, hd, hcon]
      rw [hmr]
      refine ⟨?_, ?_, ?_, ?_, ?_⟩
      · show 1 ≤ countRemove [Ev.remove ""]
        simp [countRemove, List.countP_cons, isRemoveEv]
      · show countRemove [Ev.remove ""] ≤ 2
        simp [countRemove, List.countP_cons, isRemoveEv]
      · show countCreateOk [Ev.remove ""] ≤ 1
        simp [countCreateOk, List.countP_cons, isCreateOkEv]
      · intro id hid
        simp at hid
      · intro s hs
        simp at hs
        exact Or.inl hs
  | false =>
    rcases hp : perform_all_enter w args (mainCtx w) with ⟨r, tr, c2⟩
    have spec := perform_spec w args (mainCtx w)
    rw [hp] at spec
    obtain ⟨hsc, hsr1, hsr2, hsr4, hsr5, hsr6, hsr7⟩ := spec
    have hc2 : c2.connected = true := by
      have h : c2.connected = (mainCtx w).connected := hsc
      rw [h, hmcc]
    have hr1 : countRemove tr ≤ 1 := hsr1
    have hr2 : ∀ k, r = Except.ok k → countRemove tr = 1 :=
      fun k hk => hsr2 k hk
    have hr4 : ∀ e3, e3 ∈ tr → isRemoveEv e3 = true →
        e3 = Ev.remove c2.container_id :=
      fun e3 h1 h2 => hsr4 e3 h1 h2
    have hr5 : ∀ id, Ev.createOk id ∈ tr → c2.container_id = id :=
      fun id h => hsr5 id h
    have hr6 : countCreateOk tr ≤ 1 := hsr6
    have hr7 : c2.container_id = "" ∨ Ev.createOk c2.container_id ∈ tr := by
      rcases hsr7 with h | h
      · refine Or.inl ?_
        have h2 : c2.container_id = (mainCtx w).container_id := h
        rw [h2, hmci]
      · exact Or.inr h
    cases r with
    | ok code =>
      have hmr : mainRun w args false = (u8Cast code, tr) := by
        simp [mainRun, hp, hcon]
      rw [hmr]
      refine ⟨?_, ?_, ?_, ?_, ?_⟩
      · show 1 ≤ countRemove tr
        have h := hr2 code rfl
        omega
      · show countRemove tr ≤ 2
        omega
      · exact hr6
      · intro id hid
        show Ev.remove id ∈ tr
        have hcid := hr5 id hid
        have hcnt := hr2 code rfl
        have hpos : 0 < List.countP isRemoveEv tr := by
          rw [show List.countP isRemoveEv tr = countRemove tr from rfl, hcnt]
          omega
        obtain ⟨e3, he3, hpe⟩ := List.countP_pos_iff.mp hpos
        have he := hr4 e3 he3 hpe
        rw [he, hcid] at he3
        exact he3
      · intro s hs
        have hrm := hr4 _ hs rfl
        injection hrm with hseq
        rcases hr7 with h | h
        · exact Or.inl (hseq.trans h)
        · right
          rw [hseq]
          exact h
    | error e =>
      rcases hd : delete_container w c2 with ⟨r2, tr2, c2b⟩
      have htr2 : tr2 = [Ev.remove c2.container_id] := by
        have h := delete_container_trace_connected w c2 hc2
        rw [hd] at h; exact h
      subst htr2
      cases r2 with
      | error e2 =>
        have hmr : mainRun w args false =
            (0, tr ++ [Ev.reportError e] ++ [Ev.remove c2.container_id] ++
              [Ev.reportError e2]) := by
          simp [mainRun, hp, hd, hcon]
        rw [hmr]
        have t1 : countRemove [Ev.reportError e] = 0 := by
          simp [countRemove, List.countP_cons, isRemoveEv]
        have t2 : countRemove [Ev.remove c2.container_id] = 1 := by
          simp [countRemove, List.countP_cons, isRemoveEv]
        have t3 : countRemove [Ev.reportError e2] = 0 := by
          simp [countRemove, List.countP_cons, isRemoveEv]
        have u1 : countCreateOk [Ev.reportError e] = 0 := by
          simp [countCreateOk, List.countP_cons, isCreateOkEv]
        have u2 : countCreateOk [Ev.remove c2.container_id] = 0 := by
          simp [countCreateOk, List.countP_cons, isCreateOkEv]
        have u3 : countCreateOk [Ev.reportError e2] = 0 := by
          simp [countCreateOk, List.countP_cons, isCreateOkEv]
        refine ⟨?_, ?_, ?_, ?_, ?_⟩
        · show 1 ≤ countRemove (tr ++ [Ev.reportError e] ++
            [Ev.remove c2.container_id] ++ [Ev.reportError e2])
          rw [countRemove_append, countRemove_append, countRemove_append,
            t1, t2, t3]
          omega
        · show countRemove (tr ++ [Ev.reportError e] ++
            [Ev.remove c2.container_id] ++ [Ev.reportError e2]) ≤ 2
          rw [countRemove_append, countRemove_append, countRemove_append,
            t1, t2, t3]
          omega
        · show countCreateOk (tr ++ [Ev.reportError e] ++
            [Ev.remove c2.container_id] ++ [Ev.reportError e2]) ≤ 1
          rw [countCreateOk_append, countCreateOk_append, countCreateOk_append,
            u1, u2, u3]
          omega
        · intro id hid
          have hid2 : Ev.createOk id ∈ tr := by
            rcases List.mem_append.mp hid with h4 | h4
            · rcases List.mem_append.mp h4 with h5 | h5
              · rcases List.mem_append.mp h5 with h6 | h6
                · exact h6
                · simp at h6
              · simp at h5
            · simp at h4
          have hcid := hr5 id hid2
          refine List.mem_append_left _ (List.mem_append_right _ ?_)
          rw [hcid]
          exact List.mem_singleton_self _
        · intro s hs
          have hseq : s = c2.container_id := by
            rcases List.mem_append.mp hs with h4 | h4
            · rcases List.mem_append.mp h4 with h5 | h5
              · rcases List.mem_append.mp h5 with h6 | h6
                · have hrm := hr4 _ h6 rfl
                  injection hrm
                · simp at h6
              · have h6 : Ev.remove s = Ev.remove c2.container_id :=
                  List.mem_singleton.mp h5
                injection h6
            · simp at h4
          rcases hr7 with h | h
          · exact Or.inl (hseq.trans h)
          · right
            rw [hseq]
            exact List.mem_append_left _ (List.mem_append_left _
              (List.mem_append_left _ h))
      | ok u =>
        have hmr : mainRun w args false =
            (0, tr ++ [Ev.reportError e] ++ [Ev.remove c2.container_id]) := by
          simp [mainRun, hp, hd, hcon]
        rw [hmr]
        have t1 : countRemove [Ev.reportError e] = 0 := by
          simp [countRemove, List.countP_cons, isRemoveEv]
        have t2 : countRemove [Ev.remove c2.container_id] = 1 := by
          simp [countRemove, List.countP_cons, isRemoveEv]
        have u1 : countCreateOk [Ev.reportError e] = 0 := by
          simp [countCreateOk, List.countP_cons, isCreateOkEv]
        have u2 : countCreateOk [Ev.remove c2.container_id] = 0 := by
          simp [countCreateOk, List.countP_cons, isCreateOkEv]
        refine ⟨?_, ?_, ?_, ?_, ?_⟩
        · show 1 ≤ countRemove (tr ++ [Ev.reportError e] ++
            [Ev.remove c2.container_id])
          rw [countRemove_append, countRemove_append, t1, t2]
          omega
        · show countRemove (tr ++ [Ev.reportError e] ++
            [Ev.remove c2.container_id]) ≤ 2
          rw [countRemove_append, countRemove_append, t1, t2]
          omega
        · show countCreateOk (tr ++ [Ev.reportError e] ++
            [Ev.remove c2.container_id]) ≤ 1
          rw [countCreateOk_append, countCreateOk_append, u1, u2]
          omega
        · intro id hid
          have hid2 : Ev.createOk id ∈ tr := by
            rcases List.mem_append.mp hid with h4 | h4
            · rcases List.mem_append.mp h4 with h5 | h5
              · exact h5
              · simp at h5
            · simp at h4
          have hcid := hr5 id hid2
          refine List.mem_append_right _ ?_
          rw [hcid]
          exact List.mem_singleton_self _
        · intro s hs
          have hseq : s = c2.container_id := by
            rcases List.mem_append.mp hs with h4 | h4
            · rcases List.mem_append.mp h4 with h5 | h5
              · have hrm := hr4 _ h5 rfl
                injection hrm
              · simp at h5
            · have h6 : Ev.remove s = Ev.remove c2.container_id :=
                List.mem_singleton.mp h4
              injection h6
          rcases hr7 with h | h
          · exact Or.inl (hseq.trans h)
          · right
            rw [hseq]
            exact List.mem_append_left _ (List.mem_append_left _ h)

/-- Witness for C1 amended at the all-succeeding world, both cancelled and
not. -/
theorem c1_witness :
    1 ≤ countRemove (mainRun wBase argsDefault false).2 ∧
    1 ≤ countRemove (mainRun wBase argsDefault true).2 :=
  ⟨(c1_remove_accounting_amended wBase argsDefault false rfl).1,
   (c1_remove_accounting_amended wBase argsDefault true rfl).1⟩

end Tempsystem
